import Mathlib

/-!
# Verification of the digalert capture/detection pipeline

Shallow embedding of the core logic of the digalert repository:

* `main.py`: the notification queue (`NotificationQueue`) and the per-source
  notification decision logic of the main loop;
* `detection.py`: the template cache (`cleanup_template_cache_if_needed`,
  `load_template_cached`), the multi-scale matcher
  (`advanced_template_matching`), the multi-template driver
  (`check_multiple_templates`) and the alert checker (`check_for_alert`);
* `capture.py`: the capture-method fallback logic of `WindowCapture.capture`
  and the individual capture methods;
* `learning_system.py`: `DetectionLearningSystem` (validation recording,
  threshold adjustment, false-positive filtering).

Pixel-level primitives from OpenCV (`cv2.matchTemplate`, `cv2.minMaxLoc`,
`cv2.compareHist`, CLAHE preprocessing, Canny edges) and OS primitives
(`PrintWindow`, `BitBlt`, screen grabs) are not reimplemented: they enter the
model as abstract oracle functions and record fields, while every branch,
loop, threshold and arithmetic update surrounding them is translated from the
Python source.  Machine floats become exact rationals.
-/

namespace Digalert

/-! ## Notification queue (`main.py`, class `NotificationQueue`)

`self.queue = Queue()` constructs a `queue.Queue` with the default
`maxsize=0`, i.e. an *infinite* queue.  `add_notification` does
`self.queue.put(..., timeout=1)` and returns `True`; on an infinite queue
`put` never raises `queue.Full`, so the `except` branch (log "queue full",
return `False`) is unreachable.  The queue is modelled as a list in FIFO
order, a notification as an abstract record. -/

structure Notification where
  title : ℕ
  message : ℕ
  duration : ℕ
deriving DecidableEq, Repr

/-- `main.py` `NotificationQueue.add_notification`: `put` on the unbounded
`Queue()` appends and succeeds, and the method returns `True`. -/
def add_notification (q : List Notification) (n : Notification) :
    Bool × List Notification :=
  (true, q ++ [n])

/-- Repeated `add_notification` calls with no consumer running, returning the
list of boolean results and the final queue. -/
def addNotifications (q : List Notification) :
    List Notification → List Bool × List Notification
  | [] => ([], q)
  | n :: ns =>
    let (ok, q') := add_notification q n
    let (oks, q'') := addNotifications q' ns
    (ok :: oks, q'')

/-! ## Per-source notification decision (`main.py`, lines 449-479)

One polling cycle for one source.  The mutable dictionary entries used by the
notification logic become a record; `current_time` and the per-source
`notification_cooldown` are inputs.  `queueOk` is the boolean returned by
`add_notification` (always `true` on the real unbounded queue, kept as an
input so the dependency is explicit). -/

structure SourceState where
  lastNotificationTime : ℚ
  lastAlertState : Bool
  consecutiveDetections : ℕ
  notificationsSent : ℕ
deriving DecidableEq, Repr

def initSourceState : SourceState :=
  { lastNotificationTime := 0
    lastAlertState := false
    consecutiveDetections := 0
    notificationsSent := 0 }

/-- `main.py` lines 449-479: consecutive-detection bookkeeping, the
`should_notify` condition, and the state updates performed when a
notification is (or is not) sent.  Returns whether a notification was emitted
this cycle together with the new state. -/
def notificationCycle (cooldown now : ℚ) (alertDetected queueOk : Bool)
    (s : SourceState) : Bool × SourceState :=
  let consec := if alertDetected then s.consecutiveDetections + 1 else 0
  let shouldNotify := alertDetected &&
    (!s.lastAlertState ||
      (decide (cooldown < now - s.lastNotificationTime) && decide (3 ≤ consec)))
  if shouldNotify && queueOk then
    (true,
      { lastNotificationTime := now
        lastAlertState := alertDetected
        consecutiveDetections := consec
        notificationsSent := s.notificationsSent + 1 })
  else
    (false,
      { s with lastAlertState := alertDetected, consecutiveDetections := consec })

/-- Runs a list of cycles `(now, alertDetected)` (queue always accepting, as
in the source), collecting the emitted-notification flags. -/
def runNotificationCycles (cooldown : ℚ) (s : SourceState) :
    List (ℚ × Bool) → List Bool × SourceState
  | [] => ([], s)
  | c :: cs =>
    let (fired, s') := notificationCycle cooldown c.1 c.2 true s
    let (fs, s'') := runNotificationCycles cooldown s' cs
    (fired :: fs, s'')

/-! ## Template cache cleanup (`detection.py`, lines 64-70)

`detection_stats.template_cache` is a Python dict keyed by template path;
dicts preserve insertion order and `load_template_cached` only inserts fresh
keys, so the cache is an association list in insertion order (oldest first).
`cleanup_template_cache_if_needed` keeps `items[-10:]` — the 10 most recently
inserted entries — whenever more than 20 entries are present.  The operation
never looks at the cached values, so it is stated for any value type. -/

def cleanup_template_cache_if_needed {α : Type} (cache : List (ℕ × α)) :
    List (ℕ × α) :=
  if 20 < cache.length then cache.drop (cache.length - 10) else cache

/-! ## Capture-method fallback (`capture.py`, `WindowCapture.capture`)

`capture.py` lines 668-768.  The five capture strategies are an enumeration;
which ones would succeed this cycle is an oracle `succ` (the OS state).
Handle resolution (steps 1-3 of `capture`) is abstracted into a single
`windowFound` flag: when the handle cannot be (re)obtained the method returns
`None` without touching `last_successful_method`.  The outcome records the
ordered list of capture methods actually invoked, the method that produced
the frame (if any), and the new `last_successful_method`. -/

inductive CapMethod
  | win32Gdi
  | printWindow
  | mssMonitor
  | pilImagegrab
  | obsModernPrintwindow
deriving DecidableEq, Repr

/-- `methods_order` of `capture.py` lines 733-738. -/
def methodsOrder : List CapMethod :=
  [.printWindow, .win32Gdi, .mssMonitor, .pilImagegrab]

/-- First success in a fixed method order, with the list of attempts made. -/
def tryMethodsInOrder (succ : CapMethod → Bool) :
    List CapMethod → List CapMethod × Option CapMethod
  | [] => ([], none)
  | m :: rest =>
    if succ m then ([m], some m)
    else
      let (a, r) := tryMethodsInOrder succ rest
      (m :: a, r)

structure CaptureOutcome where
  attempts : List CapMethod
  captured : Option CapMethod
  newLast : Option CapMethod
deriving DecidableEq, Repr

/-- Steps 5-6 of `WindowCapture.capture`, entered with no remembered method:
for a "last war" window the OBS-modern `PrintWindow` flag is probed first
(lines 720-730), then the standard `methods_order` scan (lines 732-759).  On
total failure line 766 resets `last_successful_method` to `None`. -/
def fallbackScan (isLastWar : Bool) (succ : CapMethod → Bool) : CaptureOutcome :=
  if isLastWar then
    if succ .obsModernPrintwindow then
      { attempts := [.obsModernPrintwindow]
        captured := some .obsModernPrintwindow
        newLast := some .obsModernPrintwindow }
    else
      let (a, r) := tryMethodsInOrder succ methodsOrder
      { attempts := .obsModernPrintwindow :: a, captured := r, newLast := r }
  else
    let (a, r) := tryMethodsInOrder succ methodsOrder
    { attempts := a, captured := r, newLast := r }

/-- `WindowCapture.capture` (lines 668-768).  Step 4: a remembered method
*other than* OBS-modern is tried first and, on failure, cleared before
falling through to the fallback scan.  A remembered OBS-modern method is
excluded by the step-4 guard, and step 5 requires `last_successful_method` to
be unset, so in that case the scan proceeds directly to the standard
`methods_order` (setting `last_successful_method` to whichever standard
method succeeds, or `None` on total failure). -/
def capture (windowFound isLastWar : Bool) (last : Option CapMethod)
    (succ : CapMethod → Bool) : CaptureOutcome :=
  if !windowFound then { attempts := [], captured := none, newLast := last }
  else
    match last with
    | some m =>
      if m ≠ .obsModernPrintwindow then
        if succ m then { attempts := [m], captured := some m, newLast := some m }
        else
          let o := fallbackScan isLastWar succ
          { attempts := m :: o.attempts, captured := o.captured, newLast := o.newLast }
      else
        let (a, r) := tryMethodsInOrder succ methodsOrder
        { attempts := a, captured := r, newLast := r }
    | none => fallbackScan isLastWar succ

/-! ## Individual capture methods (`capture.py`, lines 438-666)

Each `capture_with_*` method wraps its body in `try/except` and returns
`None` on any raised error; the body raises on an invalid handle, invalid
window dimensions, or a failed OS primitive.  The OS state is a record of
oracles; the captured frame is an abstract token. -/

structure WinEnv where
  hwndValid : Bool
  rectW : ℤ
  rectH : ℤ
  visible : Bool
  printWindowObsOk : Bool
  printWindowOk : Bool
  bitBltOk : Bool
  mssGrabOk : Bool
  pilGrabOk : Bool
  frame : ℕ
deriving DecidableEq, Repr

inductive CapErr
  | invalidHandle
  | invalidDims
  | notVisible
  | osFailure
deriving DecidableEq, Repr

/-- Body of `capture_with_obs_modern` (lines 438-487): raise on invalid
handle, then on non-positive `GetWindowRect` dimensions, then on
`PrintWindow(..., 0x3)` returning 0. -/
def captureWithObsModernBody (e : WinEnv) : Except CapErr ℕ :=
  if !e.hwndValid then .error .invalidHandle
  else if e.rectW ≤ 0 ∨ e.rectH ≤ 0 then .error .invalidDims
  else if e.printWindowObsOk then .ok e.frame
  else .error .osFailure

/-- `capture_with_obs_modern`: the surrounding `try/except` turns every
raised error into `None`. -/
def capture_with_obs_modern (e : WinEnv) : Option ℕ :=
  (captureWithObsModernBody e).toOption

/-- Body of `capture_with_print_window` (lines 489-551): same failure ladder
with the plain `PrintWindow(..., 0)` call. -/
def captureWithPrintWindowBody (e : WinEnv) : Except CapErr ℕ :=
  if !e.hwndValid then .error .invalidHandle
  else if e.rectW ≤ 0 ∨ e.rectH ≤ 0 then .error .invalidDims
  else if e.printWindowOk then .ok e.frame
  else .error .osFailure

def capture_with_print_window (e : WinEnv) : Option ℕ :=
  (captureWithPrintWindowBody e).toOption

/-- Body of `capture_with_gdi` (lines 553-601): invalid handle, then invalid
dimensions, then `BitBlt` failure. -/
def captureWithGdiBody (e : WinEnv) : Except CapErr ℕ :=
  if !e.hwndValid then .error .invalidHandle
  else if e.rectW ≤ 0 ∨ e.rectH ≤ 0 then .error .invalidDims
  else if e.bitBltOk then .ok e.frame
  else .error .osFailure

def capture_with_gdi (e : WinEnv) : Option ℕ :=
  (captureWithGdiBody e).toOption

/-- Body of `capture_with_mss` (lines 603-641): invalid handle, then a
visibility check (`IsWindowVisible`), then invalid dimensions, then the
`mss` grab itself. -/
def captureWithMssBody (e : WinEnv) : Except CapErr ℕ :=
  if !e.hwndValid then .error .invalidHandle
  else if !e.visible then .error .notVisible
  else if e.rectW ≤ 0 ∨ e.rectH ≤ 0 then .error .invalidDims
  else if e.mssGrabOk then .ok e.frame
  else .error .osFailure

def capture_with_mss (e : WinEnv) : Option ℕ :=
  (captureWithMssBody e).toOption

/-- Body of `capture_with_pil` (lines 643-666): invalid handle, then the
`ImageGrab.grab` call (no dimension check in this method). -/
def captureWithPilBody (e : WinEnv) : Except CapErr ℕ :=
  if !e.hwndValid then .error .invalidHandle
  else if e.pilGrabOk then .ok e.frame
  else .error .osFailure

def capture_with_pil (e : WinEnv) : Option ℕ :=
  (captureWithPilBody e).toOption

/-- `main.py` lines 339-485: the per-source loop body is wrapped in
`try/except`, so each source yields an outcome (possibly a failure token)
and the loop continues with the next source regardless. -/
def runSourceCycle {σ α : Type} (f : σ → Except ℕ α) (sources : List σ) :
    List (Option α) :=
  sources.map fun s => (f s).toOption

/-! ## Learning system (`learning_system.py`, class `DetectionLearningSystem`)

The claims are per alert, so the state is that of a single alert: its
`alert_stats` entry (created on first validation) and its
`threshold_adjustments` entry.  Confidences are exact rationals. -/

structure AlertStats where
  truePositives : ℕ
  falsePositives : ℕ
  avgConfidenceValid : ℚ
  avgConfidenceInvalid : ℚ
  minValidConfidence : ℚ
  maxInvalidConfidence : ℚ
deriving DecidableEq, Repr

/-- Fresh `alert_stats` entry (`learning_system.py` lines 90-98). -/
def initAlertStats : AlertStats :=
  { truePositives := 0
    falsePositives := 0
    avgConfidenceValid := 0
    avgConfidenceInvalid := 0
    minValidConfidence := 1
    maxInvalidConfidence := 0 }

structure ThresholdAdjustment where
  originalThreshold : ℚ
  suggestedThreshold : ℚ
  confidence : ℚ
  samples : ℕ
deriving DecidableEq, Repr

structure LearnState where
  stats : Option AlertStats
  adjustment : Option ThresholdAdjustment
deriving DecidableEq, Repr

def initLearnState : LearnState := { stats := none, adjustment := none }

/-- `calculate_threshold_adjustment` (lines 131-166): with at least 5 samples
and a false-positive rate above 30%, store a suggestion — the midpoint of
`max_invalid_confidence` and `min_valid_confidence` when they separate,
otherwise 95% of the mean accepted confidence — clamped into [0.5, 0.95];
otherwise leave any previously stored adjustment untouched. -/
def calculate_threshold_adjustment (st : AlertStats)
    (old : Option ThresholdAdjustment) : Option ThresholdAdjustment :=
  let tp := st.truePositives
  let fp := st.falsePositives
  if tp + fp < 5 then old
  else
    let falsePositiveRate : ℚ := (fp : ℚ) / ((tp : ℚ) + (fp : ℚ))
    if 3/10 < falsePositiveRate then
      let newThreshold :=
        if st.maxInvalidConfidence < st.minValidConfidence then
          (st.maxInvalidConfidence + st.minValidConfidence) / 2
        else
          st.avgConfidenceValid * (19/20)
      some
        { originalThreshold := 7/10
          suggestedThreshold := min (19/20) (max (1/2) newThreshold)
          confidence := 1 - falsePositiveRate
          samples := tp + fp }
    else old

/-- `record_validation` (lines 66-129) restricted to the fields the claims
depend on: update the per-alert counters, running averages and extreme
confidences, then recompute the stored threshold adjustment. -/
def record_validation (s : LearnState) (conf : ℚ) (isValid : Bool) : LearnState :=
  let st := s.stats.getD initAlertStats
  let st' :=
    if isValid then
      let n := st.truePositives + 1
      { st with
          truePositives := n
          avgConfidenceValid :=
            (((n : ℚ) - 1) * st.avgConfidenceValid + conf) / (n : ℚ)
          minValidConfidence := min st.minValidConfidence conf }
    else
      let n := st.falsePositives + 1
      { st with
          falsePositives := n
          avgConfidenceInvalid :=
            (((n : ℚ) - 1) * st.avgConfidenceInvalid + conf) / (n : ℚ)
          maxInvalidConfidence := max st.maxInvalidConfidence conf }
  { stats := some st'
    adjustment := calculate_threshold_adjustment st' s.adjustment }

/-- A sequence of user validations `(confidence, is_valid)` applied in order
to a fresh learning state. -/
def runValidations (events : List (ℚ × Bool)) : LearnState :=
  events.foldl (fun s e => record_validation s e.1 e.2) initLearnState

/-- `get_adjusted_threshold` (lines 244-260): with a stored adjustment backed
by at least 10 samples, blend the default threshold toward the suggestion by
`confidence * 0.3`; otherwise return the default unchanged. -/
def get_adjusted_threshold (s : LearnState) (defaultThreshold : ℚ) : ℚ :=
  match s.adjustment with
  | some a =>
    if 10 ≤ a.samples then
      defaultThreshold * (1 - a.confidence * (3/10)) +
        a.suggestedThreshold * (a.confidence * (3/10))
    else defaultThreshold
  | none => defaultThreshold

/-! ### False-positive pattern filtering (`learning_system.py` 262-308)

A stored pattern and a freshly detected region are compared through their
feature signatures: a 16-bin grayscale histogram (entering the model only
through the histogram-correlation oracle `histSim`, which stands for
`cv2.compareHist(..., HISTCMP_CORREL)`), mean brightness, brightness
standard deviation, and Canny edge density. -/

structure RegionSig where
  histogram : List ℚ
  meanBrightness : ℚ
  stdBrightness : ℚ
  edgeDensity : ℚ
deriving DecidableEq, Repr

/-- `should_filter_detection` (lines 262-308): `True` exactly when some
stored rejected-region signature has histogram correlation above 0.9 with
the new region and brightness / brightness-std / edge-density differences
(the first two normalized by 255) each below 0.1. -/
def should_filter_detection (patterns : List RegionSig) (sig : RegionSig)
    (histSim : RegionSig → RegionSig → ℚ) : Bool :=
  patterns.any fun p =>
    decide (9/10 < histSim p sig) &&
    decide (|sig.meanBrightness - p.meanBrightness| / 255 < 1/10) &&
    decide (|sig.stdBrightness - p.stdBrightness| / 255 < 1/10) &&
    decide (|sig.edgeDensity - p.edgeDensity| < 1/10)

/-! ## Multi-scale template matching (`detection.py`, lines 139-234)

`advanced_template_matching` scans a grid of scales and aspect ratios; at
each grid point the template is resized to `(new_w, new_h)` and
`cv2.matchTemplate` + `cv2.minMaxLoc` find the best location for two
correlation methods.  The correlation values are abstracted by a score
oracle `score method new_w new_h x y` — mathematically, a normalized
correlation lies in [-1, 1] — while the grid construction, the size guards,
the weighted best-candidate update, the feature-validation confidence boost
and the final threshold test are translated from the source.
`cv2.matchTemplate` only evaluates placements where the resized template
lies fully inside the frame, producing a result array of size
`(W - new_w + 1) × (H - new_h + 1)`; `cv2.minMaxLoc` scans it row-major and
keeps the first strict maximum. -/

inductive TMMethod
  | ccoeffNormed
  | ccorrNormed
deriving DecidableEq, Repr

/-- The per-method weights of `detection.py` lines 175-178. -/
def methodWeight : TMMethod → ℚ
  | .ccoeffNormed => 1
  | .ccorrNormed => 9/10

def tmMethods : List TMMethod := [.ccoeffNormed, .ccorrNormed]

/-- Score oracle: `score m w h x y` is the correlation value computed by
`cv2.matchTemplate(screenshot, resize(template, (w, h)), m)` at location
`(x, y)`. -/
abbrev ScoreFn := TMMethod → ℕ → ℕ → ℕ → ℕ → ℚ

/-- `np.arange(start, stop, step)` for a positive step, in exact arithmetic:
`start + k * step` for `k < ⌈(stop - start) / step⌉`. -/
def arange (start stop step : ℚ) : List ℚ :=
  (List.range (⌈(stop - start) / step⌉).toNat).map fun k => start + k * step

/-- The adaptive scale list of `advanced_template_matching`
(lines 150-169): fine 0.05 steps on [0.7, 1.3] clipped to
`[min_scale, max_scale]`, then coarser 0.1 steps below 0.7 and above 1.3. -/
def scalesFor (tw th sw sh : ℕ) : List ℚ :=
  let minScale : ℚ := max (1/2) (min (50 / (tw : ℚ)) (50 / (th : ℚ)))
  let maxScale : ℚ :=
    min 2 (min ((sw : ℚ) * (4/5) / (tw : ℚ)) ((sh : ℚ) * (4/5) / (th : ℚ)))
  let fine := (arange (7/10) (131/100) (1/20)).filter
    fun s => decide (minScale ≤ s) && decide (s ≤ maxScale)
  let lowCoarse := if minScale < 7/10 then arange minScale (7/10) (1/10) else []
  let highCoarse :=
    if 13/10 < maxScale then arange (14/10) (min maxScale 2 + 1/10) (1/10) else []
  fine ++ lowCoarse ++ highCoarse

/-- `aspect_ratios` (line 172). -/
def aspectRatioList : List ℚ := [17/20, 9/10, 19/20, 1, 21/20, 11/10, 23/20]

/-- The scan order of the two nested loops (lines 182-183): scale-major. -/
def gridPoints (tw th sw sh : ℕ) : List (ℚ × ℚ) :=
  (scalesFor tw th sw sh).flatMap fun s => aspectRatioList.map fun r => (s, r)

/-- `cv2.minMaxLoc` maximum over a `cols × rows` result array: row-major
scan, first strict maximum kept, location reported as `(x, y)`. -/
def minMaxLocMax (score : ℕ → ℕ → ℚ) (cols rows : ℕ) : ℚ × ℕ × ℕ :=
  (List.range rows).foldl
    (fun acc y =>
      (List.range cols).foldl
        (fun acc x => if acc.1 < score x y then (score x y, x, y) else acc)
        acc)
    (score 0 0, 0, 0)

/-- The `best_match` dictionary built at line 209 (`confidence` is the
unweighted correlation value; `template_size` is `(new_w, new_h)`). -/
structure MatchCandidate where
  confidence : ℚ
  weightedConfidence : ℚ
  locX : ℕ
  locY : ℕ
  scale : ℚ
  aspectRatio : ℚ
  sizeW : ℕ
  sizeH : ℕ
  featureValidation : ℚ
deriving DecidableEq, Repr

/-- The body of the inner `for method, weight in methods` loop
(lines 200-218): run the matcher, weight its maximum, and replace the
running best on a strictly better weighted confidence (the stored
`confidence` stays unweighted, line 210). -/
def methodUpdate (score : ScoreFn) (sw sh newW newH : ℕ) (scale ratio : ℚ)
    (st : Option MatchCandidate × ℚ) (m : TMMethod) :
    Option MatchCandidate × ℚ :=
  let r := minMaxLocMax (fun x y => score m newW newH x y)
    (sw - newW + 1) (sh - newH + 1)
  let weighted := r.1 * methodWeight m
  if st.2 < weighted then
    (some
      { confidence := r.1
        weightedConfidence := weighted
        locX := r.2.1
        locY := r.2.2
        scale := scale
        aspectRatio := ratio
        sizeW := newW
        sizeH := newH
        featureValidation := 0 }, weighted)
  else st

/-- One iteration of the scan (lines 184-218) at grid point
`(scale, aspect_ratio)`: compute `new_w = int(tw * scale * ratio)` and
`new_h = int(th * scale)`, skip sizes below 20px or above 90% of the frame,
then update the running best with each matching method's weighted maximum. -/
def scanPoint (score : ScoreFn) (tw th sw sh : ℕ)
    (st : Option MatchCandidate × ℚ) (p : ℚ × ℚ) :
    Option MatchCandidate × ℚ :=
  let newW := (⌊(tw : ℚ) * p.1 * p.2⌋).toNat
  let newH := (⌊(th : ℚ) * p.1⌋).toNat
  if newW < 20 ∨ newH < 20 then st
  else if (sw : ℚ) * (9/10) < (newW : ℚ) ∨ (sh : ℚ) * (9/10) < (newH : ℚ) then st
  else tmMethods.foldl (methodUpdate score sw sh newW newH p.1 p.2) st

/-- The full scale/ratio scan: a plain left fold over every grid point —
the source loop has no early exit. -/
def scanGrid (score : ScoreFn) (tw th sw sh : ℕ) (pts : List (ℚ × ℚ))
    (st : Option MatchCandidate × ℚ) : Option MatchCandidate × ℚ :=
  pts.foldl (scanPoint score tw th sw sh) st

/-- Modelled from the spec: the early-stopping scan described in section 4.5
step 4 ("Early-stop the scale/ratio scan immediately when a near-perfect
score (>0.95) is found"), which the source loop does not implement.  It
stops as soon as the running best confidence exceeds 0.95. -/
def scanGridSpecEarlyStop (score : ScoreFn) (tw th sw sh : ℕ) :
    List (ℚ × ℚ) → Option MatchCandidate × ℚ → Option MatchCandidate × ℚ
  | [], st => st
  | p :: rest, st =>
    let st' := scanPoint score tw th sw sh st p
    match st'.1 with
    | some b =>
      if 19/20 < b.confidence then st'
      else scanGridSpecEarlyStop score tw th sw sh rest st'
    | none => scanGridSpecEarlyStop score tw th sw sh rest st'

/-- Lines 224-232: when the best candidate reaches 80% of the threshold, a
feature-based validation score (histogram / edge / local-structure
comparison, abstracted by the oracle `validate`) may boost the confidence by
up to 20%, capped at 1. -/
def validationBoost (validate : MatchCandidate → ℚ) (threshold : ℚ) :
    Option MatchCandidate → Option MatchCandidate
  | none => none
  | some b =>
    if threshold * (4/5) ≤ b.confidence then
      let vs := validate b
      if 0 < vs then
        some { b with
          featureValidation := vs
          confidence := min 1 (b.confidence * (1 + vs * (1/5))) }
      else some b
    else some b

/-- `advanced_template_matching` (lines 139-234): scan the whole grid, apply
the validation boost, and return the best candidate iff its confidence
reaches the threshold. -/
def advanced_template_matching (score : ScoreFn)
    (validate : MatchCandidate → ℚ) (tw th sw sh : ℕ) (threshold : ℚ) :
    Option MatchCandidate :=
  let best := (scanGrid score tw th sw sh (gridPoints tw th sw sh) (none, 0)).1
  match validationBoost validate threshold best with
  | some b => if threshold ≤ b.confidence then some b else none
  | none => none

/-! ## Template store and multi-template driver (`detection.py` 72-99, 358-423)

A cached template carries its dimensions and, in place of its pixel data,
the two oracles the matcher consumes: its score function against the current
frame and its feature-validation oracle.  `load_template_cached` consults
the cache first and otherwise asks the disk oracle (`cv2.imread`, returning
`none` on a missing or undecodable file) and appends the new entry — Python
dicts append fresh keys in insertion order. -/

structure Template where
  w : ℕ
  h : ℕ
  score : ScoreFn
  validate : MatchCandidate → ℚ

abbrev TemplateCache := List (ℕ × Template)

/-- `load_template_cached` (lines 72-99); the small/large-dimension warnings
are logging only. -/
def load_template_cached (disk : ℕ → Option Template) (cache : TemplateCache)
    (path : ℕ) : Option Template × TemplateCache :=
  match cache.lookup path with
  | some t => (some t, cache)
  | none =>
    match disk path with
    | some t => (some t, cache ++ [(path, t)])
    | none => (none, cache)

inductive MatchStrategy
  | best
  | first
  | all
  | other
deriving DecidableEq, Repr

/-- A `match_result` extended with its `template_path` (lines 390-391). -/
structure TemplateMatch where
  m : MatchCandidate
  templatePath : ℕ
deriving DecidableEq, Repr

/-- Return shape of `check_multiple_templates`: a single best/first match, or
the `{'matches': ..., 'best_confidence': ..., 'match_count': ...}` record of
the `"all"` strategy. -/
inductive MultiMatch
  | single (tm : TemplateMatch)
  | allOf (found : List TemplateMatch) (bestConfidence : ℚ) (matchCount : ℕ)
deriving DecidableEq, Repr

/-- The template loop of `check_multiple_templates` (lines 371-404): load
each template (skipping load failures), run `advanced_template_matching`,
collect results clearing the threshold, and break after the first hit under
the `"first"` strategy. -/
def collectTemplateMatches (disk : ℕ → Option Template) (sw sh : ℕ)
    (threshold : ℚ) (strategy : MatchStrategy) :
    List ℕ → TemplateCache → List TemplateMatch →
    List TemplateMatch × TemplateCache
  | [], cache, acc => (acc, cache)
  | p :: rest, cache, acc =>
    let loaded := load_template_cached disk cache p
    match loaded.1 with
    | none => collectTemplateMatches disk sw sh threshold strategy rest loaded.2 acc
    | some t =>
      match advanced_template_matching t.score t.validate t.w t.h sw sh threshold with
      | none => collectTemplateMatches disk sw sh threshold strategy rest loaded.2 acc
      | some m =>
        if threshold ≤ m.confidence then
          let acc' := acc ++ [{ m := m, templatePath := p }]
          if strategy = .first then (acc', loaded.2)
          else collectTemplateMatches disk sw sh threshold strategy rest loaded.2 acc'
        else collectTemplateMatches disk sw sh threshold strategy rest loaded.2 acc

/-- Python `max(results, key=lambda x: x['confidence'])`: first element of
maximal confidence. -/
def maxByConfidence (hd : TemplateMatch) (tl : List TemplateMatch) : TemplateMatch :=
  tl.foldl (fun b r => if b.m.confidence < r.m.confidence then r else b) hd

/-- `check_multiple_templates` (lines 358-423).  The CLAHE preprocessing of
frame and template (`preprocess_image_for_detection`) returns a non-`None`
image for every non-`None` input — its `except` arm returns the input — so
it is absorbed into the score oracle.  Unknown strategies fall back to the
best-confidence result (lines 421-423). -/
def check_multiple_templates (disk : ℕ → Option Template) (cache : TemplateCache)
    (templatePaths : List ℕ) (threshold : ℚ) (strategy : MatchStrategy)
    (sw sh : ℕ) : Option MultiMatch × TemplateCache :=
  if templatePaths = [] then (none, cache)
  else
    let collected :=
      collectTemplateMatches disk sw sh threshold strategy templatePaths cache []
    match collected.1 with
    | [] => (none, collected.2)
    | hd :: tl =>
      match strategy with
      | .best => (some (.single (maxByConfidence hd tl)), collected.2)
      | .first => (some (.single hd), collected.2)
      | .all =>
        (some (.allOf (hd :: tl)
          ((tl.map fun r => r.m.confidence).foldl max hd.m.confidence)
          (hd :: tl).length), collected.2)
      | .other => (some (.single (maxByConfidence hd tl)), collected.2)

/-! ## Alert checking (`detection.py`, `check_for_alert`, lines 425-623)

The alert dictionary becomes a record.  Keys read with `.get` (with a
default) cannot raise; the direct subscripts `alert['threshold']` and
`alert['history']` raise `KeyError` when missing, which the enclosing
`try/except` converts into the falsy no-detection result — the body is
therefore modelled in `Except`, carrying the state (template cache, alert
history) present at the point of the error, and `check_for_alert` is the
catching wrapper.  The screenshot enters as its dimensions (its pixel
content is absorbed by the per-template score oracles and the
region-signature oracle); `pytesseract` is the oracle `ocrOutcome`
(`none` = the OCR call raised). -/

structure DetectionArea where
  x : ℕ
  y : ℕ
  width : ℕ
  height : ℕ
deriving DecidableEq, Repr

structure AlertCfg where
  enabled : Bool
  hasImgs : Bool
  imagePaths : List ℕ
  matchStrategy : MatchStrategy
  threshold : Option ℚ
  hasHistory : Bool
  history : List ℚ
  ocrTarget : Option ℕ

/-- Lines 506-529: when the detection clears the adjusted threshold and its
area lies inside the screenshot, compare the region's signature against the
stored false-positive patterns and halve the confidence on a match
(`confidence *= 0.5`); in every other case the confidence is unchanged. -/
def apply_false_positive_filter (patterns : List RegionSig)
    (histSim : RegionSig → RegionSig → ℚ)
    (regionSig : ℕ → ℕ → ℕ → ℕ → RegionSig) (sw sh : ℕ)
    (adjustedThreshold conf : ℚ) (area : Option DetectionArea) : ℚ :=
  match area with
  | none => conf
  | some a =>
    if adjustedThreshold ≤ conf then
      if a.x + a.width ≤ sw ∧ a.y + a.height ≤ sh then
        if should_filter_detection patterns (regionSig a.x a.y a.width a.height)
            histSim then
          conf * (1/2)
        else conf
      else conf
    else conf

structure DetectResult where
  confidence : ℚ
  success : Bool
  area : Option DetectionArea
  cache : TemplateCache
  history : List ℚ

inductive DetectErr
  | missingThreshold
  | missingHistory
deriving DecidableEq, Repr

/-- Body of `check_for_alert` (the contents of the `try` at lines 431-611).
Lines 491-504 read the detection area as `h, w = match_result
['template_size']` although `template_size` holds `(new_w, new_h)`, so the
area's `width`/`height` fields receive the scaled height/width swapped;
the model reproduces this. -/
def check_for_alertBody (disk : ℕ → Option Template) (learn : LearnState)
    (patterns : List RegionSig) (histSim : RegionSig → RegionSig → ℚ)
    (regionSig : ℕ → ℕ → ℕ → ℕ → RegionSig) (ocrOutcome : Option Bool)
    (screenshot : Option (ℕ × ℕ)) (alert : AlertCfg) (cache : TemplateCache) :
    Except (DetectErr × TemplateCache × List ℚ) DetectResult :=
  match screenshot with
  | none => .ok ⟨0, false, none, cache, alert.history⟩
  | some (sw, sh) =>
    if !alert.enabled then .ok ⟨0, false, none, cache, alert.history⟩
    else if alert.hasImgs then
      if alert.imagePaths = [] then .ok ⟨0, false, none, cache, alert.history⟩
      else
        match alert.threshold with
        | none => .error (.missingThreshold, cache, alert.history)
        | some originalThreshold =>
          let adjustedThreshold := get_adjusted_threshold learn originalThreshold
          let (matchRes, cache') := check_multiple_templates disk cache
            alert.imagePaths adjustedThreshold alert.matchStrategy sw sh
          let confArea : ℚ × Option DetectionArea :=
            match matchRes with
            | none => (0, none)
            | some (.single tm) =>
              (tm.m.confidence,
                some ⟨tm.m.locX, tm.m.locY, tm.m.sizeH, tm.m.sizeW⟩)
            | some (.allOf ms bc _) =>
              (bc,
                match ms with
                | [] => none
                | hd :: tl =>
                  let b := maxByConfidence hd tl
                  some ⟨b.m.locX, b.m.locY, b.m.sizeH, b.m.sizeW⟩)
          let confidence := apply_false_positive_filter patterns histSim
            regionSig sw sh adjustedThreshold confArea.1 confArea.2
          let success := matchRes.isSome && decide (adjustedThreshold ≤ confidence)
          if !alert.hasHistory then .error (.missingHistory, cache', alert.history)
          else .ok ⟨confidence, success, confArea.2, cache',
            alert.history ++ [confidence]⟩
    else
      match alert.ocrTarget with
      | some _ =>
        match ocrOutcome with
        | some found =>
          if !alert.hasHistory then .error (.missingHistory, cache, alert.history)
          else if found then
            .ok ⟨1, true, some ⟨0, 0, sw, sh⟩, cache, alert.history ++ [1]⟩
          else .ok ⟨0, false, none, cache, alert.history ++ [0]⟩
        | none =>
          if !alert.hasHistory then .error (.missingHistory, cache, alert.history)
          else .ok ⟨0, false, none, cache, alert.history ++ [0]⟩
      | none => .ok ⟨0, false, none, cache, alert.history⟩

/-- `check_for_alert`: the `except` arm (lines 613-623) turns any raised
error into the falsy no-detection result, keeping whatever cache mutations
already happened. -/
def check_for_alert (disk : ℕ → Option Template) (learn : LearnState)
    (patterns : List RegionSig) (histSim : RegionSig → RegionSig → ℚ)
    (regionSig : ℕ → ℕ → ℕ → ℕ → RegionSig) (ocrOutcome : Option Bool)
    (screenshot : Option (ℕ × ℕ)) (alert : AlertCfg) (cache : TemplateCache) :
    DetectResult :=
  match check_for_alertBody disk learn patterns histSim regionSig ocrOutcome
      screenshot alert cache with
  | .ok r => r
  | .error (_, cache', hist') => ⟨0, false, none, cache', hist'⟩

/-! ## Derived views and concrete example inputs used by the theorems -/

/-- The per-alert statistics as `record_validation` reads them
(`alert_stats.get(name)` with the fresh-entry default). -/
def statsOf (s : LearnState) : AlertStats := s.stats.getD initAlertStats

/-- Confidences of the accepted validations, in order. -/
def acceptedConfs (events : List (ℚ × Bool)) : List ℚ :=
  (events.filter fun e => e.2).map fun e => e.1

/-- Confidences of the rejected validations, in order. -/
def rejectedConfs (events : List (ℚ × Bool)) : List ℚ :=
  (events.filter fun e => !e.2).map fun e => e.1

/-- The value `min_valid_confidence` reaches after a validation sequence
(running minimum seeded with the initial 1.0). -/
def acceptedMin (events : List (ℚ × Bool)) : ℚ :=
  (acceptedConfs events).foldl min 1

/-- The value `max_invalid_confidence` reaches after a validation sequence
(running maximum seeded with the initial 0.0). -/
def rejectedMax (events : List (ℚ × Bool)) : ℚ :=
  (rejectedConfs events).foldl max 0

def exNotification : Notification := { title := 0, message := 0, duration := 10 }

/-- Detect, miss one cycle, detect again — with a cooldown far longer than
the trace. -/
def exCycleTrace : List (ℚ × Bool) := [(1, true), (2, false), (3, true)]

/-- A template cache holding 30 entries, oldest first. -/
def exCache30 : List (ℕ × ℕ) := (List.range 30).map fun i => (i, i)

/-- Score oracle for a 17×17 template in a 28×28 frame (scanned at the
single scale 1.4): the resize to width 20 (ratio 0.85, scanned first) scores
0.96 everywhere, the resize to width 23 (ratio 1.0, scanned later) scores
0.99 everywhere, everything else scores 0. -/
def exScore : ScoreFn := fun _ w _ _ _ =>
  if w = 20 then 24/25 else if w = 23 then 99/100 else 0

def exValidate : MatchCandidate → ℚ := fun _ => 0

/-- The candidate `advanced_template_matching` returns on `exScore`. -/
def exCandidate : MatchCandidate :=
  { confidence := 99/100
    weightedConfidence := 99/100
    locX := 0
    locY := 0
    scale := 7/5
    aspectRatio := 1
    sizeW := 23
    sizeH := 23
    featureValidation := 0 }

/-- Ten validations: four rejections at confidence 0.1, six acceptances at
confidence 0.3 — cleanly separated, false-positive rate 40%. -/
def exEventsBad : List (ℚ × Bool) :=
  [(1/10, false), (1/10, false), (1/10, false), (1/10, false),
   (3/10, true), (3/10, true), (3/10, true), (3/10, true),
   (3/10, true), (3/10, true)]

/-- Ten validations: four rejections at confidence 0.4, six acceptances at
confidence 0.8 — separated, with the midpoint 0.6 inside [0.5, 0.95]. -/
def exEventsSep : List (ℚ × Bool) :=
  [(2/5, false), (2/5, false), (2/5, false), (2/5, false),
   (4/5, true), (4/5, true), (4/5, true), (4/5, true),
   (4/5, true), (4/5, true)]

def exSig : RegionSig :=
  { histogram := [1], meanBrightness := 1/2, stdBrightness := 1/10,
    edgeDensity := 1/5 }

def exHistSim : RegionSig → RegionSig → ℚ := fun _ _ => 1

def exSigFn : ℕ → ℕ → ℕ → ℕ → RegionSig := fun _ _ _ _ => exSig

def exDisk : ℕ → Option Template := fun _ => none

/-- An OS state whose window handle has become invalid. -/
def exBadEnv : WinEnv :=
  { hwndValid := false, rectW := 100, rectH := 100, visible := true,
    printWindowObsOk := true, printWindowOk := true, bitBltOk := true,
    mssGrabOk := true, pilGrabOk := true, frame := 7 }

/-- An enabled template alert whose dictionary lacks the `threshold` key, so
`alert['threshold']` raises `KeyError` inside the `try`. -/
def exAlertNoThreshold : AlertCfg :=
  { enabled := true, hasImgs := true, imagePaths := [0],
    matchStrategy := .best, threshold := none, hasHistory := true,
    history := [], ocrTarget := none }

/-- A disabled template alert. -/
def exAlertDisabled : AlertCfg :=
  { enabled := false, hasImgs := true, imagePaths := [0],
    matchStrategy := .best, threshold := some (7/10), hasHistory := true,
    history := [], ocrTarget := none }

/-! # Theorems -/

/-! ## C4 — notification queue boundedness -/

/-- C4: the claim says the queue drained by the notification worker is
bounded at ~10 entries with enqueues dropped (returning failure) when full.
The code constructs `Queue()` with the default infinite capacity, so
`put` never raises `queue.Full`: eleven successive `add_notification` calls
with no consumer all return `True` and leave eleven entries queued — the
"queue full" `except` arm of `add_notification` is dead code. -/
theorem c4_queue_unbounded :
    (addNotifications [] (List.replicate 11 exNotification)).1 =
      List.replicate 11 true ∧
    (addNotifications [] (List.replicate 11 exNotification)).2.length = 11 ∧
    10 < (addNotifications [] (List.replicate 11 exNotification)).2.length := by
  decide

/-! ## C3 — notification state machine -/

/-- C3 counterexample: with cooldown 100, the trace detect / no-detect /
detect emits a notification on the third cycle (`[true, false, true]`) even
though only 1 consecutive detection has accrued and only 2 time units have
passed since the previous notification: `last_alert_state` was reset to
`False` by the gap cycle, and the `not last_alert_state` disjunct fires
immediately, with no cooldown or 3-consecutive-detections gate. -/
theorem c3_counterexample :
    (runNotificationCycles 100 initSourceState exCycleTrace).1 =
      [true, false, true] ∧
    (runNotificationCycles 100 initSourceState exCycleTrace).2.notificationsSent
      = 2 ∧
    (runNotificationCycles 100 initSourceState exCycleTrace).2.consecutiveDetections
      = 1 := by
  decide

/-- C3 amended: a detection arriving while the previous cycle had no
detection (`last_alert_state = False`) emits immediately — including a
detection that disappeared for a cycle and reappeared, which re-fires at
once regardless of cooldown; only while detection is continuously present
(`last_alert_state = True`) is a further notification gated by both the
cooldown having elapsed and at least 3 consecutive detections. -/
theorem c3_amended (cooldown now : ℚ) (s : SourceState) :
    (s.lastAlertState = false →
      (notificationCycle cooldown now true true s).1 = true) ∧
    (s.lastAlertState = true →
      (notificationCycle cooldown now true true s).1 = true →
      cooldown < now - s.lastNotificationTime ∧
        3 ≤ s.consecutiveDetections + 1) := by
  constructor
  · intro h
    simp [notificationCycle, h]
  · intro h hfired
    by_contra hc
    rw [not_and_or] at hc
    rcases hc with hc | hc
    · simp [notificationCycle, h, hc] at hfired
    · simp [notificationCycle, h, hc] at hfired

/-- Witness for `c3_amended` at a concrete idle state. -/
theorem c3_amended_witness :
    (notificationCycle 100 5 true true initSourceState).1 = true :=
  (c3_amended 100 5 initSourceState).1 rfl

/-! ## C8 — template cache cleanup -/

/-- C8 counterexample: on a 30-entry cache (which exceeds the 20-entry
ceiling), `cleanup_template_cache_if_needed` keeps the fixed newest 10
entries (`items[-10:]`), not the newest half (15): the result equals
`drop 20`, not `drop 15`. -/
theorem c8_counterexample :
    cleanup_template_cache_if_needed exCache30 = exCache30.drop 20 ∧
    cleanup_template_cache_if_needed exCache30 ≠ exCache30.drop 15 := by
  decide

/-- C8 amended: whenever the cleanup operation runs on a cache whose entry
count exceeds the 20-entry ceiling it keeps exactly the 10 most recently
inserted entries (half of the ceiling, not half of the current count), so
the cache size never exceeds the ceiling after cleanup and the survivors
are precisely the newest entries in insertion order (a suffix of the
cache); a cache at or below the ceiling is left unchanged. -/
theorem c8_amended {α : Type} (cache : List (ℕ × α)) :
    (20 < cache.length →
      cleanup_template_cache_if_needed cache = cache.drop (cache.length - 10) ∧
      (cleanup_template_cache_if_needed cache).length = 10 ∧
      (cleanup_template_cache_if_needed cache).length ≤ 20 ∧
      cleanup_template_cache_if_needed cache <:+ cache) ∧
    (cache.length ≤ 20 → cleanup_template_cache_if_needed cache = cache) := by
  constructor
  · intro h
    have heq : cleanup_template_cache_if_needed cache =
        cache.drop (cache.length - 10) := by
      simp [cleanup_template_cache_if_needed, h]
    refine ⟨heq, ?_, ?_, ?_⟩
    · rw [heq, List.length_drop]
      omega
    · rw [heq, List.length_drop]
      omega
    · rw [heq]
      exact List.drop_suffix _ _
  · intro h
    simp [cleanup_template_cache_if_needed]
    omega

/-- Witness for `c8_amended` on the 30-entry cache and a 1-entry cache. -/
theorem c8_amended_witness :
    (cleanup_template_cache_if_needed exCache30).length = 10 ∧
    cleanup_template_cache_if_needed ([(0, 0)] : List (ℕ × ℕ)) = [(0, 0)] :=
  ⟨((c8_amended exCache30).1 (by decide)).2.1,
    (c8_amended [(0, 0)]).2 (by decide)⟩

/-! ## C2 — remembered capture method -/

/-- C2 counterexample: with `last_successful_method = obs_modern_printwindow`
remembered on a "last war" window and every method able to succeed, the next
`capture` call never tries the remembered method: the step-4 guard excludes
OBS-modern and step 5 requires no remembered method, so the scan goes
straight to the standard order and calls `print_window` — another capture
method — even though the remembered one did not fail. -/
theorem c2_counterexample :
    capture true true (some .obsModernPrintwindow) (fun _ => true) =
      { attempts := [.printWindow], captured := some .printWindow,
        newLast := some .printWindow } ∧
    CapMethod.obsModernPrintwindow ∉
      (capture true true (some .obsModernPrintwindow) (fun _ => true)).attempts := by
  decide

/-- C2 amended: for a remembered method from the standard order
(`print_window`, `gdi`, `mss`, `pil`), a subsequent capture tries it first
and calls no other method when it succeeds; when it fails, the remembered
method is cleared and the full fallback order (OBS-modern first for
"last war" windows, then the standard order) runs again.  A remembered
OBS-modern method, by contrast, is never retried: the next capture goes
straight to the standard-order scan, remembering whichever standard method
succeeds (or clearing the memory on total failure). -/
theorem c2_amended (isLastWar : Bool) (m : CapMethod) (succ : CapMethod → Bool)
    (hm : m ∈ methodsOrder) :
    (succ m = true →
      capture true isLastWar (some m) succ =
        { attempts := [m], captured := some m, newLast := some m }) ∧
    (succ m = false →
      capture true isLastWar (some m) succ =
        { attempts := m :: (fallbackScan isLastWar succ).attempts,
          captured := (fallbackScan isLastWar succ).captured,
          newLast := (fallbackScan isLastWar succ).newLast }) ∧
    (capture true isLastWar (some .obsModernPrintwindow) succ =
      { attempts := (tryMethodsInOrder succ methodsOrder).1,
        captured := (tryMethodsInOrder succ methodsOrder).2,
        newLast := (tryMethodsInOrder succ methodsOrder).2 }) := by
  have hne : m ≠ .obsModernPrintwindow := by
    intro h
    rw [h] at hm
    simp [methodsOrder] at hm
  refine ⟨?_, ?_, ?_⟩
  · intro h
    simp [capture, hne, h]
  · intro h
    simp [capture, hne, h]
  · rfl

/-- Witness for `c2_amended`: remembered `print_window` succeeding,
remembered `gdi` failing with rotation to the fallback scan, and a
remembered OBS-modern method being bypassed for the standard-order scan. -/
theorem c2_amended_witness :
    capture true false (some .printWindow) (fun _ => true) =
      { attempts := [.printWindow], captured := some .printWindow,
        newLast := some .printWindow } ∧
    capture true false (some .win32Gdi) (fun _ => false) =
      { attempts := .win32Gdi :: (fallbackScan false (fun _ => false)).attempts,
        captured := (fallbackScan false (fun _ => false)).captured,
        newLast := (fallbackScan false (fun _ => false)).newLast } ∧
    capture true false (some .obsModernPrintwindow) (fun _ => false) =
      { attempts := [.printWindow, .win32Gdi, .mssMonitor, .pilImagegrab],
        captured := none, newLast := none } := by
  refine ⟨(c2_amended false .printWindow (fun _ => true) (by decide)).1 rfl,
    (c2_amended false .win32Gdi (fun _ => false) (by decide)).2.1 rfl, ?_⟩
  rw [(c2_amended false .printWindow (fun _ => false) (by decide)).2.2]
  decide

/-! ## C9 — no exception crosses a per-source boundary -/

/-- C9: each `capture_with_*` method returns `None` rather than raising on
an invalid window handle, on zero/negative window dimensions (for the
methods that read dimensions; `capture_with_pil` passes the rectangle
straight to `ImageGrab.grab`, whose failure is the failed-primitive case),
and on a failed OS primitive; `check_for_alert` returns the falsy
no-detection result (confidence 0, success `False`, no area) whenever its
body raises; and the per-source loop of `main.py` produces one outcome per
source, so one source's failure cannot prevent the others from being
processed in the same cycle. -/
theorem c9_no_exception_propagation :
    (∀ e : WinEnv, e.hwndValid = false →
      capture_with_obs_modern e = none ∧ capture_with_print_window e = none ∧
      capture_with_gdi e = none ∧ capture_with_mss e = none ∧
      capture_with_pil e = none) ∧
    (∀ e : WinEnv, e.rectW ≤ 0 ∨ e.rectH ≤ 0 →
      capture_with_obs_modern e = none ∧ capture_with_print_window e = none ∧
      capture_with_gdi e = none ∧ capture_with_mss e = none) ∧
    (∀ e : WinEnv,
      (e.printWindowObsOk = false → capture_with_obs_modern e = none) ∧
      (e.printWindowOk = false → capture_with_print_window e = none) ∧
      (e.bitBltOk = false → capture_with_gdi e = none) ∧
      (e.mssGrabOk = false → capture_with_mss e = none) ∧
      (e.pilGrabOk = false → capture_with_pil e = none)) ∧
    (∀ (disk : ℕ → Option Template) (learn : LearnState)
        (patterns : List RegionSig) (histSim : RegionSig → RegionSig → ℚ)
        (regionSig : ℕ → ℕ → ℕ → ℕ → RegionSig) (ocrOutcome : Option Bool)
        (screenshot : Option (ℕ × ℕ)) (alert : AlertCfg)
        (cache : TemplateCache) (err : DetectErr × TemplateCache × List ℚ),
      check_for_alertBody disk learn patterns histSim regionSig ocrOutcome
          screenshot alert cache = .error err →
      (check_for_alert disk learn patterns histSim regionSig ocrOutcome
          screenshot alert cache).confidence = 0 ∧
      (check_for_alert disk learn patterns histSim regionSig ocrOutcome
          screenshot alert cache).success = false ∧
      (check_for_alert disk learn patterns histSim regionSig ocrOutcome
          screenshot alert cache).area = none) ∧
    (∀ (σ α : Type) (f : σ → Except ℕ α) (sources : List σ),
      (runSourceCycle f sources).length = sources.length) := by
  refine ⟨?_, ?_, ?_, ?_, ?_⟩
  · intro e h
    refine ⟨?_, ?_, ?_, ?_, ?_⟩ <;>
      simp only [capture_with_obs_modern, captureWithObsModernBody,
        capture_with_print_window, captureWithPrintWindowBody,
        capture_with_gdi, captureWithGdiBody, capture_with_mss,
        captureWithMssBody, capture_with_pil, captureWithPilBody] <;>
      split_ifs <;> simp_all [Except.toOption]
  · intro e h
    refine ⟨?_, ?_, ?_, ?_⟩ <;>
      simp only [capture_with_obs_modern, captureWithObsModernBody,
        capture_with_print_window, captureWithPrintWindowBody,
        capture_with_gdi, captureWithGdiBody, capture_with_mss,
        captureWithMssBody] <;>
      split_ifs <;> simp_all [Except.toOption]
  · intro e
    refine ⟨?_, ?_, ?_, ?_, ?_⟩ <;> intro h <;>
      simp only [capture_with_obs_modern, captureWithObsModernBody,
        capture_with_print_window, captureWithPrintWindowBody,
        capture_with_gdi, captureWithGdiBody, capture_with_mss,
        captureWithMssBody, capture_with_pil, captureWithPilBody] <;>
      split_ifs <;> simp_all [Except.toOption]
  · intro disk learn patterns histSim regionSig ocrOutcome screenshot alert
      cache err h
    obtain ⟨e, c, hist⟩ := err
    simp [check_for_alert, h]
  · intro σ α f sources
    simp [runSourceCycle]

/-- Witness for `c9_no_exception_propagation`: an invalid handle, a failed
`PrintWindow`, a `KeyError` on a missing `threshold` key, and a three-source
cycle. -/
theorem c9_witness :
    capture_with_print_window exBadEnv = none ∧
    capture_with_mss exBadEnv = none ∧
    (check_for_alert exDisk initLearnState [] exHistSim exSigFn none
        (some (100, 100)) exAlertNoThreshold []).success = false ∧
    (runSourceCycle (fun n : ℕ => (Except.ok n : Except ℕ ℕ)) [1, 2, 3]).length
      = 3 :=
  ⟨(c9_no_exception_propagation.1 exBadEnv rfl).2.1,
    (c9_no_exception_propagation.1 exBadEnv rfl).2.2.2.1,
    (c9_no_exception_propagation.2.2.2.1 exDisk initLearnState [] exHistSim
      exSigFn none (some (100, 100)) exAlertNoThreshold []
      (.missingThreshold, [], []) rfl).2.1,
    c9_no_exception_propagation.2.2.2.2 ℕ ℕ (fun n => Except.ok n) [1, 2, 3]⟩

/-! ## C10 — guard clauses of `check_for_alert` -/

/-- C10: a `None` screenshot, or an alert whose `enabled` flag is false,
makes `check_for_alert` return the no-detection result (confidence 0.0,
success `False`, `None` detection area) with the template cache and the
alert's history unchanged — the guards return before the template cache,
the learning system, or the history list is consulted or modified. -/
theorem c10_guard_clauses (disk : ℕ → Option Template) (learn : LearnState)
    (patterns : List RegionSig) (histSim : RegionSig → RegionSig → ℚ)
    (regionSig : ℕ → ℕ → ℕ → ℕ → RegionSig) (ocrOutcome : Option Bool)
    (screenshot : Option (ℕ × ℕ)) (alert : AlertCfg) (cache : TemplateCache)
    (h : screenshot = none ∨ alert.enabled = false) :
    check_for_alert disk learn patterns histSim regionSig ocrOutcome screenshot
        alert cache =
      { confidence := 0, success := false, area := none, cache := cache,
        history := alert.history } := by
  rcases h with h | h
  · subst h
    rfl
  · cases screenshot with
    | none => rfl
    | some p =>
      obtain ⟨sw, sh⟩ := p
      simp [check_for_alert, check_for_alertBody, h]

/-- Witness for `c10_guard_clauses`: a `None` screenshot and a disabled
alert. -/
theorem c10_witness :
    check_for_alert exDisk initLearnState [] exHistSim exSigFn none none
        exAlertNoThreshold [] =
      { confidence := 0, success := false, area := none, cache := [],
        history := [] } ∧
    check_for_alert exDisk initLearnState [] exHistSim exSigFn none
        (some (100, 100)) exAlertDisabled [] =
      { confidence := 0, success := false, area := none, cache := [],
        history := [] } :=
  ⟨c10_guard_clauses exDisk initLearnState [] exHistSim exSigFn none none
      exAlertNoThreshold [] (Or.inl rfl),
    c10_guard_clauses exDisk initLearnState [] exHistSim exSigFn none
      (some (100, 100)) exAlertDisabled [] (Or.inr rfl)⟩

/-! ## C7 — false-positive suppression -/

/-- C7: `should_filter_detection` reports a match exactly when some stored
rejected-region signature has histogram correlation above 0.9 and
brightness, brightness-std (both normalized by 255) and edge-density
differences each below 0.1; and inside `check_for_alert` a detection whose
region signature matches has its effective confidence multiplied by 0.5
(not discarded), while a non-matching detection keeps its confidence
unchanged. -/
theorem c7_false_positive_filter (patterns : List RegionSig) (sig : RegionSig)
    (histSim : RegionSig → RegionSig → ℚ) :
    (should_filter_detection patterns sig histSim = true ↔
      ∃ p ∈ patterns, 9/10 < histSim p sig ∧
        |sig.meanBrightness - p.meanBrightness| / 255 < 1/10 ∧
        |sig.stdBrightness - p.stdBrightness| / 255 < 1/10 ∧
        |sig.edgeDensity - p.edgeDensity| < 1/10) ∧
    (∀ (regionSig : ℕ → ℕ → ℕ → ℕ → RegionSig) (sw sh : ℕ)
        (adjThr conf : ℚ) (a : DetectionArea),
      adjThr ≤ conf → a.x + a.width ≤ sw → a.y + a.height ≤ sh →
      regionSig a.x a.y a.width a.height = sig →
      apply_false_positive_filter patterns histSim regionSig sw sh adjThr conf
          (some a) =
        if should_filter_detection patterns sig histSim then conf * (1/2)
        else conf) := by
  constructor
  · simp [should_filter_detection, List.any_eq_true, Bool.and_eq_true,
      decide_eq_true_eq, and_assoc]
  · intro regionSig sw sh adjThr conf a h1 h2 h3 hsig
    simp [apply_false_positive_filter, h1, h2, h3, hsig]

/-- Witness for `c7_false_positive_filter`: a region whose signature equals a
stored rejected signature is suppressed and its confidence halved. -/
theorem c7_witness :
    should_filter_detection [exSig] exSig exHistSim = true ∧
    apply_false_positive_filter [exSig] exHistSim exSigFn 200 200 (7/10) (4/5)
        (some { x := 10, y := 10, width := 50, height := 50 }) =
      (4/5 : ℚ) * (1/2) := by
  have h := c7_false_positive_filter [exSig] exSig exHistSim
  have h1 : should_filter_detection [exSig] exSig exHistSim = true :=
    h.1.mpr ⟨exSig, by simp, by norm_num [exHistSim], by norm_num,
      by norm_num, by norm_num⟩
  refine ⟨h1, ?_⟩
  rw [h.2 exSigFn 200 200 (7/10) (4/5)
    { x := 10, y := 10, width := 50, height := 50 } (by norm_num) (by norm_num)
    (by norm_num) rfl, h1]
  simp

/-! ## C6 — threshold adjustment: supporting lemmas -/

theorem record_true_fields (s : LearnState) (c : ℚ) :
    (statsOf (record_validation s c true)).truePositives =
      (statsOf s).truePositives + 1 ∧
    (statsOf (record_validation s c true)).falsePositives =
      (statsOf s).falsePositives ∧
    (statsOf (record_validation s c true)).minValidConfidence =
      min (statsOf s).minValidConfidence c ∧
    (statsOf (record_validation s c true)).maxInvalidConfidence =
      (statsOf s).maxInvalidConfidence := by
  simp [record_validation, statsOf]

theorem record_false_fields (s : LearnState) (c : ℚ) :
    (statsOf (record_validation s c false)).truePositives =
      (statsOf s).truePositives ∧
    (statsOf (record_validation s c false)).falsePositives =
      (statsOf s).falsePositives + 1 ∧
    (statsOf (record_validation s c false)).minValidConfidence =
      (statsOf s).minValidConfidence ∧
    (statsOf (record_validation s c false)).maxInvalidConfidence =
      max (statsOf s).maxInvalidConfidence c := by
  simp [record_validation, statsOf]

theorem record_adjustment_eq (s : LearnState) (c : ℚ) (v : Bool) :
    (record_validation s c v).adjustment =
      calculate_threshold_adjustment (statsOf (record_validation s c v))
        s.adjustment := by
  cases v <;> simp [record_validation, statsOf]

theorem acceptedConfs_cons_true (c : ℚ) (rest : List (ℚ × Bool)) :
    acceptedConfs ((c, true) :: rest) = c :: acceptedConfs rest := by
  simp [acceptedConfs]

theorem acceptedConfs_cons_false (c : ℚ) (rest : List (ℚ × Bool)) :
    acceptedConfs ((c, false) :: rest) = acceptedConfs rest := by
  simp [acceptedConfs]

theorem rejectedConfs_cons_true (c : ℚ) (rest : List (ℚ × Bool)) :
    rejectedConfs ((c, true) :: rest) = rejectedConfs rest := by
  simp [rejectedConfs]

theorem rejectedConfs_cons_false (c : ℚ) (rest : List (ℚ × Bool)) :
    rejectedConfs ((c, false) :: rest) = c :: rejectedConfs rest := by
  simp [rejectedConfs]

theorem accepted_rejected_length (events : List (ℚ × Bool)) :
    (acceptedConfs events).length + (rejectedConfs events).length =
      events.length := by
  induction events with
  | nil => simp [acceptedConfs, rejectedConfs]
  | cons e rest ih =>
    obtain ⟨c, v⟩ := e
    cases v
    · rw [acceptedConfs_cons_false, rejectedConfs_cons_false,
        List.length_cons, List.length_cons]
      omega
    · rw [acceptedConfs_cons_true, rejectedConfs_cons_true,
        List.length_cons, List.length_cons]
      omega

/-- The four statistics fields after folding a validation sequence over any
initial state. -/
theorem foldValidations_fields (events : List (ℚ × Bool)) :
    ∀ s : LearnState,
      (statsOf (events.foldl (fun s e => record_validation s e.1 e.2) s)).truePositives
        = (statsOf s).truePositives + (acceptedConfs events).length ∧
      (statsOf (events.foldl (fun s e => record_validation s e.1 e.2) s)).falsePositives
        = (statsOf s).falsePositives + (rejectedConfs events).length ∧
      (statsOf (events.foldl (fun s e => record_validation s e.1 e.2) s)).minValidConfidence
        = (acceptedConfs events).foldl min (statsOf s).minValidConfidence ∧
      (statsOf (events.foldl (fun s e => record_validation s e.1 e.2) s)).maxInvalidConfidence
        = (rejectedConfs events).foldl max (statsOf s).maxInvalidConfidence := by
  induction events with
  | nil => intro s; simp [acceptedConfs, rejectedConfs]
  | cons e rest ih =>
    intro s
    obtain ⟨c, v⟩ := e
    have hfold : ((c, v) :: rest).foldl (fun s e => record_validation s e.1 e.2) s
        = rest.foldl (fun s e => record_validation s e.1 e.2)
            (record_validation s c v) := rfl
    cases v with
    | true =>
      have h := ih (record_validation s c true)
      have hf := record_true_fields s c
      rw [hfold, acceptedConfs_cons_true, rejectedConfs_cons_true]
      refine ⟨?_, ?_, ?_, ?_⟩
      · rw [h.1, hf.1, List.length_cons]; omega
      · rw [h.2.1, hf.2.1]
      · rw [h.2.2.1, hf.2.2.1]; rfl
      · rw [h.2.2.2, hf.2.2.2]
    | false =>
      have h := ih (record_validation s c false)
      have hf := record_false_fields s c
      rw [hfold, acceptedConfs_cons_false, rejectedConfs_cons_false]
      refine ⟨?_, ?_, ?_, ?_⟩
      · rw [h.1, hf.1]
      · rw [h.2.1, hf.2.1, List.length_cons]; omega
      · rw [h.2.2.1, hf.2.2.1]
      · rw [h.2.2.2, hf.2.2.2]; rfl

/-- A stored result of `calculate_threshold_adjustment` is either the
previous adjustment or carries the current sample count. -/
theorem calculate_samples (st : AlertStats) (old : Option ThresholdAdjustment)
    (a : ThresholdAdjustment)
    (h : calculate_threshold_adjustment st old = some a) :
    old = some a ∨ a.samples = st.truePositives + st.falsePositives := by
  simp only [calculate_threshold_adjustment] at h
  split_ifs at h <;>
    first
    | exact Or.inl h
    | (cases h; exact Or.inr rfl)

/-- Any stored adjustment carries a sample count bounded by the current
total number of recorded samples. -/
theorem record_adjustment_bound (s : LearnState) (c : ℚ) (v : Bool)
    (h : ∀ a, s.adjustment = some a →
      a.samples ≤ (statsOf s).truePositives + (statsOf s).falsePositives) :
    ∀ a, (record_validation s c v).adjustment = some a →
      a.samples ≤ (statsOf (record_validation s c v)).truePositives +
        (statsOf (record_validation s c v)).falsePositives := by
  intro a ha
  have htot : (statsOf (record_validation s c v)).truePositives +
      (statsOf (record_validation s c v)).falsePositives =
      (statsOf s).truePositives + (statsOf s).falsePositives + 1 := by
    cases v
    · have hf := record_false_fields s c
      omega
    · have hf := record_true_fields s c
      omega
  rw [record_adjustment_eq] at ha
  rcases calculate_samples _ _ _ ha with hold | hsamp
  · have := h a hold
    omega
  · omega

theorem foldValidations_adjustment_bound (events : List (ℚ × Bool)) :
    ∀ s : LearnState,
      (∀ a, s.adjustment = some a →
        a.samples ≤ (statsOf s).truePositives + (statsOf s).falsePositives) →
      ∀ a, (events.foldl (fun s e => record_validation s e.1 e.2) s).adjustment
          = some a →
        a.samples ≤
          (statsOf (events.foldl (fun s e => record_validation s e.1 e.2) s)).truePositives +
          (statsOf (events.foldl (fun s e => record_validation s e.1 e.2) s)).falsePositives := by
  induction events with
  | nil => intro s h; exact h
  | cons e rest ih =>
    intro s h
    exact ih (record_validation s e.1 e.2) (record_adjustment_bound s e.1 e.2 h)

theorem runValidations_samples_le (events : List (ℚ × Bool)) :
    ∀ a, (runValidations events).adjustment = some a →
      a.samples ≤ events.length := by
  intro a ha
  have h := foldValidations_adjustment_bound events initLearnState
    (by intro a h; simp [initLearnState] at h) a ha
  have hf := foldValidations_fields events initLearnState
  rw [hf.1, hf.2.1] at h
  have hlen := accepted_rejected_length events
  simp only [statsOf, initLearnState, Option.getD, initAlertStats] at h
  omega

theorem lt_foldl_min {q : ℚ} : ∀ {l : List ℚ} {b : ℚ}, q < b →
    (∀ x ∈ l, q < x) → q < l.foldl min b := by
  intro l
  induction l with
  | nil => intro b hb _; exact hb
  | cons x t ih =>
    intro b hb hl
    exact ih (lt_min hb (hl x (by simp))) fun y hy => hl y (by simp [hy])

theorem foldl_max_lt {q : ℚ} : ∀ {l : List ℚ} {b : ℚ}, b < q →
    (∀ x ∈ l, x < q) → l.foldl max b < q := by
  intro l
  induction l with
  | nil => intro b hb _; exact hb
  | cons x t ih =>
    intro b hb hl
    exact ih (max_lt hb (hl x (by simp))) fun y hy => hl y (by simp [hy])

theorem runValidations_def (events : List (ℚ × Bool)) :
    runValidations events =
      events.foldl (fun s e => record_validation s e.1 e.2) initLearnState := rfl

/-- Statistics after a validation sequence from the fresh state. -/
theorem runValidations_fields (events : List (ℚ × Bool)) :
    (statsOf (runValidations events)).truePositives =
      (acceptedConfs events).length ∧
    (statsOf (runValidations events)).falsePositives =
      (rejectedConfs events).length ∧
    (statsOf (runValidations events)).minValidConfidence =
      acceptedMin events ∧
    (statsOf (runValidations events)).maxInvalidConfidence =
      rejectedMax events := by
  have hf := foldValidations_fields events initLearnState
  have h0 : statsOf initLearnState = initAlertStats := rfl
  rw [h0] at hf
  refine ⟨?_, ?_, ?_, ?_⟩
  · rw [runValidations_def, hf.1]
    show 0 + _ = _
    omega
  · rw [runValidations_def, hf.2.1]
    show 0 + _ = _
    omega
  · rw [runValidations_def, hf.2.2.1]
    rfl
  · rw [runValidations_def, hf.2.2.2]
    rfl

/-! ## C6 — threshold adjustment -/

/-- C6 counterexample: ten cleanly separated samples — four rejections at
confidence 0.1, six acceptances at confidence 0.3 (false-positive rate 40%)
— produce a stored suggested threshold of 0.5: the midpoint 0.2 is clamped
up by `max(0.5, ...)` (line 159), so the suggestion does NOT lie strictly
between the maximum rejected confidence (0.1) and the minimum accepted
confidence (0.3). -/
theorem c6_counterexample :
    (runValidations exEventsBad).adjustment =
      some { originalThreshold := 7/10, suggestedThreshold := 1/2,
             confidence := 3/5, samples := 10 } ∧
    rejectedMax exEventsBad = 1/10 ∧
    acceptedMin exEventsBad = 3/10 ∧
    ¬ ((1 : ℚ)/2 < 3/10) :=
  of_decide_eq_true (by with_unfolding_all rfl)

/-- C6 amended: with fewer than 10 recorded samples the adjusted threshold
equals the default exactly.  Once at least 10 samples exist, every rejected
confidence lies below every accepted confidence (with rejected confidences
in [0, ·) and accepted in (·, 1]), and the false-positive rate exceeds 30%
(the only condition under which an adjustment is stored at all), the
stored suggested threshold equals the midpoint of the maximum rejected and
minimum accepted confidences clamped into [0.5, 0.95]; whenever that
midpoint itself lies within [0.5, 0.95] the stored threshold equals the
midpoint unchanged and lies strictly between the two extreme confidences
(outside that range the clamp can break strict betweenness: see the
counterexample). -/
theorem c6_amended :
    (∀ (events : List (ℚ × Bool)) (d : ℚ), events.length < 10 →
      get_adjusted_threshold (runValidations events) d = d) ∧
    (∀ events : List (ℚ × Bool),
      10 ≤ events.length →
      (∀ e ∈ events, e.2 = false → ∀ e' ∈ events, e'.2 = true → e.1 < e'.1) →
      (∀ e ∈ events, e.2 = true → e.1 ≤ 1) →
      (∀ e ∈ events, e.2 = false → 0 ≤ e.1) →
      (∃ e ∈ events, e.2 = true) →
      3 * events.length < 10 * (rejectedConfs events).length →
      ∃ a, (runValidations events).adjustment = some a ∧
        a.suggestedThreshold =
          min (19/20) (max (1/2)
            ((rejectedMax events + acceptedMin events) / 2)) ∧
        a.samples = events.length ∧
        (1/2 ≤ (rejectedMax events + acceptedMin events) / 2 →
          (rejectedMax events + acceptedMin events) / 2 ≤ 19/20 →
          a.suggestedThreshold = (rejectedMax events + acceptedMin events) / 2 ∧
          rejectedMax events < a.suggestedThreshold ∧
          a.suggestedThreshold < acceptedMin events)) := by
  constructor
  · intro events d hlen
    rcases hadj : (runValidations events).adjustment with _ | a
    · simp [get_adjusted_threshold, hadj]
    · have hle := runValidations_samples_le events a hadj
      have h10 : ¬ 10 ≤ a.samples := by omega
      simp [get_adjusted_threshold, hadj, h10]
  · intro events h10 hsep hub hlb hacc hrate
    -- membership transfer between events and the filtered confidence lists
    have hmemA : ∀ x ∈ acceptedConfs events, ∃ e ∈ events, e.2 = true ∧ e.1 = x := by
      intro x hx
      simp only [acceptedConfs, List.mem_map, List.mem_filter] at hx
      obtain ⟨e, ⟨he, hv⟩, hx⟩ := hx
      exact ⟨e, he, hv, hx⟩
    have hmemR : ∀ x ∈ rejectedConfs events, ∃ e ∈ events, e.2 = false ∧ e.1 = x := by
      intro x hx
      simp only [rejectedConfs, List.mem_map, List.mem_filter] at hx
      obtain ⟨e, ⟨he, hv⟩, hx⟩ := hx
      exact ⟨e, he, by simpa using hv, hx⟩
    obtain ⟨e₀, he₀, hv₀⟩ := hacc
    have hrejne : 1 ≤ (rejectedConfs events).length := by
      by_contra h
      have : (rejectedConfs events).length = 0 := by omega
      omega
    obtain ⟨r₀, hr₀⟩ : ∃ r, r ∈ rejectedConfs events := by
      cases hr : rejectedConfs events with
      | nil => rw [hr] at hrejne; simp at hrejne
      | cons r t => exact ⟨r, by simp [hr]⟩
    -- every rejected confidence is below the accepted minimum
    have hminA_lt : ∀ r ∈ rejectedConfs events, r < acceptedMin events := by
      intro r hr
      obtain ⟨er, her, herv, hre⟩ := hmemR r hr
      apply lt_foldl_min
      · have h1 : r < e₀.1 := hre ▸ hsep er her herv e₀ he₀ hv₀
        have h2 : e₀.1 ≤ 1 := hub e₀ he₀ hv₀
        linarith
      · intro x hx
        obtain ⟨ea, hea, heav, hae⟩ := hmemA x hx
        exact hae ▸ hre ▸ hsep er her herv ea hea heav
    have h0A : (0 : ℚ) < acceptedMin events := by
      obtain ⟨er, her, herv, hre⟩ := hmemR r₀ hr₀
      apply lt_foldl_min
      · norm_num
      · intro x hx
        obtain ⟨ea, hea, heav, hae⟩ := hmemA x hx
        have h1 : 0 ≤ r₀ := hre ▸ hlb er her herv
        have h2 : r₀ < x := hae ▸ hre ▸ hsep er her herv ea hea heav
        linarith
    have hsepMM : rejectedMax events < acceptedMin events :=
      foldl_max_lt h0A hminA_lt
    -- the last validation stores the adjustment computed from the final stats
    have hne : events ≠ [] := by
      intro h
      rw [h] at h10
      simp at h10
    obtain ⟨l, e, rfl⟩ : ∃ l e, events = l ++ [e] := by
      rcases List.eq_nil_or_concat events with h | ⟨l, e, h⟩
      · exact absurd h hne
      · exact ⟨l, e, by simpa [List.concat_eq_append] using h⟩
    have hrun : runValidations (l ++ [e]) =
        record_validation (runValidations l) e.1 e.2 := by
      simp [runValidations_def, List.foldl_append]
    have hadj : (runValidations (l ++ [e])).adjustment =
        calculate_threshold_adjustment (statsOf (runValidations (l ++ [e])))
          (runValidations l).adjustment := by
      rw [hrun, record_adjustment_eq, ← hrun]
    have hfields := runValidations_fields (l ++ [e])
    have hlen := accepted_rejected_length (l ++ [e])
    have h5 : ¬ ((statsOf (runValidations (l ++ [e]))).truePositives +
        (statsOf (runValidations (l ++ [e]))).falsePositives < 5) := by
      rw [hfields.1, hfields.2.1]
      omega
    have hTpos : (0 : ℚ) <
        ((statsOf (runValidations (l ++ [e]))).truePositives : ℚ) +
        ((statsOf (runValidations (l ++ [e]))).falsePositives : ℚ) := by
      rw [hfields.1, hfields.2.1]
      have : 0 < (acceptedConfs (l ++ [e])).length +
          (rejectedConfs (l ++ [e])).length := by omega
      exact_mod_cast this
    have hrate' : 3 / 10 <
        ((statsOf (runValidations (l ++ [e]))).falsePositives : ℚ) /
        (((statsOf (runValidations (l ++ [e]))).truePositives : ℚ) +
          ((statsOf (runValidations (l ++ [e]))).falsePositives : ℚ)) := by
      rw [div_lt_div_iff₀ (by norm_num) hTpos]
      rw [hfields.1, hfields.2.1]
      have hnat : 3 * ((acceptedConfs (l ++ [e])).length +
          (rejectedConfs (l ++ [e])).length) <
          (rejectedConfs (l ++ [e])).length * 10 := by omega
      exact_mod_cast hnat
    have hsep' : (statsOf (runValidations (l ++ [e]))).maxInvalidConfidence <
        (statsOf (runValidations (l ++ [e]))).minValidConfidence := by
      rw [hfields.2.2.1, hfields.2.2.2]
      exact hsepMM
    rw [hadj]
    simp only [calculate_threshold_adjustment]
    rw [if_neg h5, if_pos hrate', if_pos hsep']
    refine ⟨_, rfl, ?_, ?_, ?_⟩
    · show min (19/20) (max (1/2)
        (((statsOf (runValidations (l ++ [e]))).maxInvalidConfidence +
          (statsOf (runValidations (l ++ [e]))).minValidConfidence) / 2)) = _
      rw [hfields.2.2.1, hfields.2.2.2]
    · show (statsOf (runValidations (l ++ [e]))).truePositives +
        (statsOf (runValidations (l ++ [e]))).falsePositives = _
      rw [hfields.1, hfields.2.1]
      omega
    · intro hmidlo hmidhi
      refine ⟨?_, ?_, ?_⟩
      · show min (19/20) (max (1/2)
          (((statsOf (runValidations (l ++ [e]))).maxInvalidConfidence +
            (statsOf (runValidations (l ++ [e]))).minValidConfidence) / 2)) = _
        rw [hfields.2.2.1, hfields.2.2.2, max_eq_right hmidlo, min_eq_right hmidhi]
      · show rejectedMax (l ++ [e]) < min (19/20) (max (1/2)
          (((statsOf (runValidations (l ++ [e]))).maxInvalidConfidence +
            (statsOf (runValidations (l ++ [e]))).minValidConfidence) / 2))
        rw [hfields.2.2.1, hfields.2.2.2, max_eq_right hmidlo, min_eq_right hmidhi]
        linarith
      · show min (19/20) (max (1/2)
          (((statsOf (runValidations (l ++ [e]))).maxInvalidConfidence +
            (statsOf (runValidations (l ++ [e]))).minValidConfidence) / 2)) <
          acceptedMin (l ++ [e])
        rw [hfields.2.2.1, hfields.2.2.2, max_eq_right hmidlo, min_eq_right hmidhi]
        linarith

/-- Witness for `c6_amended`: a single sample leaves the threshold at the
default, and the ten separated samples of `exEventsSep` yield the stored
suggestion `min 0.95 (max 0.5 0.6)`, the clamped midpoint. -/
theorem c6_amended_witness :
    get_adjusted_threshold (runValidations [((1 : ℚ)/2, true)]) (7/10) = 7/10 ∧
    ((runValidations exEventsSep).adjustment.map
        ThresholdAdjustment.suggestedThreshold) =
      some (min (19/20) (max (1/2)
        ((rejectedMax exEventsSep + acceptedMin exEventsSep) / 2))) := by
  constructor
  · exact c6_amended.1 [((1 : ℚ)/2, true)] (7/10) (by decide)
  · obtain ⟨a, ha, hs, -, -⟩ := c6_amended.2 exEventsSep (by decide)
      (of_decide_eq_true (by with_unfolding_all rfl))
      (of_decide_eq_true (by with_unfolding_all rfl))
      (of_decide_eq_true (by with_unfolding_all rfl))
      (of_decide_eq_true (by with_unfolding_all rfl))
      (of_decide_eq_true (by with_unfolding_all rfl))
    rw [ha, Option.map_some', hs]

/-! ## C1 / C5 — matching engine: supporting lemmas -/

theorem foldl_preserve {α β : Type} {P : α → Prop} (f : α → β → α) :
    ∀ (l : List β) (acc : α), (∀ a b, b ∈ l → P a → P (f a b)) → P acc →
      P (l.foldl f acc) := by
  intro l
  induction l with
  | nil => intro acc _ h; exact h
  | cons b t ih =>
    intro acc hstep h
    exact ih (f acc b)
      (fun a c hc ha => hstep a c (by simp [hc]) ha)
      (hstep acc b (by simp) h)

/-- `cv2.minMaxLoc`: the reported maximum is the value at the reported
location, and the location lies inside the result array. -/
theorem minMaxLocMax_spec (f : ℕ → ℕ → ℚ) (cols rows : ℕ) (hc : 0 < cols)
    (hr : 0 < rows) :
    (minMaxLocMax f cols rows).2.1 < cols ∧
    (minMaxLocMax f cols rows).2.2 < rows ∧
    (minMaxLocMax f cols rows).1 =
      f (minMaxLocMax f cols rows).2.1 (minMaxLocMax f cols rows).2.2 := by
  unfold minMaxLocMax
  apply foldl_preserve
    (P := fun acc : ℚ × ℕ × ℕ =>
      acc.2.1 < cols ∧ acc.2.2 < rows ∧ acc.1 = f acc.2.1 acc.2.2)
  · intro acc y hy hacc
    apply foldl_preserve
      (P := fun acc : ℚ × ℕ × ℕ =>
        acc.2.1 < cols ∧ acc.2.2 < rows ∧ acc.1 = f acc.2.1 acc.2.2)
    · intro a x hx ha
      dsimp only
      split_ifs with h
      · exact ⟨List.mem_range.mp hx, List.mem_range.mp hy, rfl⟩
      · exact ha
    · exact hacc
  · exact ⟨hc, hr, rfl⟩

theorem methodWeight_pos (m : TMMethod) : 0 < methodWeight m := by
  cases m <;> norm_num [methodWeight]

theorem methodWeight_le_one (m : TMMethod) : methodWeight m ≤ 1 := by
  cases m <;> norm_num [methodWeight]

theorem methodUpdate_mono (score : ScoreFn) (sw sh newW newH : ℕ)
    (scale ratio : ℚ) (st : Option MatchCandidate × ℚ) (m : TMMethod) :
    st.2 ≤ (methodUpdate score sw sh newW newH scale ratio st m).2 := by
  unfold methodUpdate
  dsimp only
  split_ifs with h
  · exact le_of_lt h
  · exact le_refl _

theorem methodUpdate_ge (score : ScoreFn) (sw sh newW newH : ℕ)
    (scale ratio : ℚ) (st : Option MatchCandidate × ℚ) (m : TMMethod) :
    (minMaxLocMax (fun x y => score m newW newH x y)
        (sw - newW + 1) (sh - newH + 1)).1 * methodWeight m ≤
      (methodUpdate score sw sh newW newH scale ratio st m).2 := by
  unfold methodUpdate
  dsimp only
  split_ifs with h
  · exact le_refl _
  · exact le_of_not_lt h

/-- The scan-state predicate carried through the grid fold: the running
weighted best is nonnegative, and any stored candidate has a confidence in
(0, 1] and a matched region inside the frame. -/
def GoodState (sw sh : ℕ) (st : Option MatchCandidate × ℚ) : Prop :=
  0 ≤ st.2 ∧ ∀ b, st.1 = some b →
    0 < b.confidence ∧ b.confidence ≤ 1 ∧
    b.locX + b.sizeW ≤ sw ∧ b.locY + b.sizeH ≤ sh

theorem methodUpdate_good {score : ScoreFn} {sw sh newW newH : ℕ}
    (scale ratio : ℚ)
    (hs : ∀ m w h x y, -1 ≤ score m w h x y ∧ score m w h x y ≤ 1)
    (hw : newW ≤ sw) (hh : newH ≤ sh)
    {st : Option MatchCandidate × ℚ} (m : TMMethod)
    (hG : GoodState sw sh st) :
    GoodState sw sh (methodUpdate score sw sh newW newH scale ratio st m) := by
  unfold methodUpdate
  dsimp only
  split_ifs with h
  · have hspec := minMaxLocMax_spec (fun x y => score m newW newH x y)
      (sw - newW + 1) (sh - newH + 1) (by omega) (by omega)
    set r := minMaxLocMax (fun x y => score m newW newH x y)
      (sw - newW + 1) (sh - newH + 1) with hr
    have hwpos := methodWeight_pos m
    have hweighted : 0 < r.1 * methodWeight m := lt_of_le_of_lt hG.1 h
    have hval : 0 < r.1 := by
      rcases mul_pos_iff.mp hweighted with ⟨h1, _⟩ | ⟨_, h2⟩
      · exact h1
      · linarith
    have hval1 : r.1 ≤ 1 := by
      rw [hspec.2.2]
      exact (hs m newW newH _ _).2
    constructor
    · exact le_of_lt hweighted
    · intro b hb
      cases hb
      refine ⟨hval, hval1, ?_, ?_⟩
      · show r.2.1 + newW ≤ sw
        have := hspec.1
        omega
      · show r.2.2 + newH ≤ sh
        have := hspec.2.1
        omega
  · exact hG

theorem scanPoint_good {score : ScoreFn} {tw th sw sh : ℕ}
    (hs : ∀ m w h x y, -1 ≤ score m w h x y ∧ score m w h x y ≤ 1)
    {st : Option MatchCandidate × ℚ} (p : ℚ × ℚ)
    (hG : GoodState sw sh st) :
    GoodState sw sh (scanPoint score tw th sw sh st p) := by
  unfold scanPoint
  dsimp only
  split_ifs with h1 h2
  · exact hG
  · exact hG
  · rw [not_or] at h2
    have hwq : ((⌊(tw : ℚ) * p.1 * p.2⌋).toNat : ℚ) ≤ (sw : ℚ) := by
      have h := not_lt.mp h2.1
      have hsw : (0 : ℚ) ≤ (sw : ℚ) := Nat.cast_nonneg sw
      linarith
    have hhq : ((⌊(th : ℚ) * p.1⌋).toNat : ℚ) ≤ (sh : ℚ) := by
      have h := not_lt.mp h2.2
      have hsh : (0 : ℚ) ≤ (sh : ℚ) := Nat.cast_nonneg sh
      linarith
    have hw : (⌊(tw : ℚ) * p.1 * p.2⌋).toNat ≤ sw := Nat.cast_le.mp hwq
    have hh : (⌊(th : ℚ) * p.1⌋).toNat ≤ sh := Nat.cast_le.mp hhq
    apply foldl_preserve (P := GoodState sw sh)
    · intro a m _ ha
      exact methodUpdate_good p.1 p.2 hs hw hh m ha
    · exact hG

theorem scanGrid_good {score : ScoreFn} {tw th sw sh : ℕ}
    (hs : ∀ m w h x y, -1 ≤ score m w h x y ∧ score m w h x y ≤ 1)
    (pts : List (ℚ × ℚ)) {st : Option MatchCandidate × ℚ}
    (hG : GoodState sw sh st) :
    GoodState sw sh (scanGrid score tw th sw sh pts st) := by
  unfold scanGrid
  apply foldl_preserve (P := GoodState sw sh)
  · intro a p _ ha
    exact scanPoint_good hs p ha
  · exact hG

theorem scanPoint_mono (score : ScoreFn) (tw th sw sh : ℕ)
    (st : Option MatchCandidate × ℚ) (p : ℚ × ℚ) :
    st.2 ≤ (scanPoint score tw th sw sh st p).2 := by
  unfold scanPoint
  dsimp only
  split_ifs with h1 h2
  · exact le_refl _
  · exact le_refl _
  · show st.2 ≤ (tmMethods.foldl _ st).2
    simp only [tmMethods, List.foldl_cons, List.foldl_nil]
    exact le_trans (methodUpdate_mono score sw sh _ _ p.1 p.2 st .ccoeffNormed)
      (methodUpdate_mono score sw sh _ _ p.1 p.2 _ .ccorrNormed)

theorem scanGrid_mono (score : ScoreFn) (tw th sw sh : ℕ) :
    ∀ (pts : List (ℚ × ℚ)) (st : Option MatchCandidate × ℚ),
      st.2 ≤ (scanGrid score tw th sw sh pts st).2 := by
  intro pts
  induction pts with
  | nil => intro st; exact le_refl _
  | cons p t ih =>
    intro st
    exact le_trans (scanPoint_mono score tw th sw sh st p)
      (ih (scanPoint score tw th sw sh st p))

theorem scanGrid_append (score : ScoreFn) (tw th sw sh : ℕ)
    (l1 l2 : List (ℚ × ℚ)) (st : Option MatchCandidate × ℚ) :
    scanGrid score tw th sw sh (l1 ++ l2) st =
      scanGrid score tw th sw sh l2 (scanGrid score tw th sw sh l1 st) := by
  unfold scanGrid
  exact List.foldl_append _ _ _ _

/-- A grid point that passes the size guards contributes both of its
weighted method maxima as lower bounds on the resulting best. -/
theorem scanPoint_ge {score : ScoreFn} {tw th sw sh : ℕ} {s r : ℚ}
    (h1 : ¬ ((⌊(tw : ℚ) * s * r⌋).toNat < 20 ∨ (⌊(th : ℚ) * s⌋).toNat < 20))
    (h2 : ¬ ((sw : ℚ) * (9/10) < ((⌊(tw : ℚ) * s * r⌋).toNat : ℚ) ∨
        (sh : ℚ) * (9/10) < ((⌊(th : ℚ) * s⌋).toNat : ℚ)))
    (st : Option MatchCandidate × ℚ) (m : TMMethod) :
    (minMaxLocMax
        (fun x y => score m (⌊(tw : ℚ) * s * r⌋).toNat (⌊(th : ℚ) * s⌋).toNat x y)
        (sw - (⌊(tw : ℚ) * s * r⌋).toNat + 1)
        (sh - (⌊(th : ℚ) * s⌋).toNat + 1)).1 * methodWeight m ≤
      (scanPoint score tw th sw sh st (s, r)).2 := by
  unfold scanPoint
  dsimp only
  rw [if_neg h1, if_neg h2]
  simp only [tmMethods, List.foldl_cons, List.foldl_nil]
  cases m
  · exact le_trans
      (methodUpdate_ge score sw sh _ _ s r st .ccoeffNormed)
      (methodUpdate_mono score sw sh _ _ s r _ .ccorrNormed)
  · exact methodUpdate_ge score sw sh _ _ s r _ .ccorrNormed

/-- The feature-validation boost keeps the location and size fields, keeps
the confidence positive, and caps it at 1. -/
theorem validationBoost_props (sw sh : ℕ) (validate : MatchCandidate → ℚ)
    (threshold : ℚ) (b? : Option MatchCandidate)
    (h : ∀ b, b? = some b →
      0 < b.confidence ∧ b.confidence ≤ 1 ∧
      b.locX + b.sizeW ≤ sw ∧ b.locY + b.sizeH ≤ sh) :
    ∀ b', validationBoost validate threshold b? = some b' →
      0 < b'.confidence ∧ b'.confidence ≤ 1 ∧
      b'.locX + b'.sizeW ≤ sw ∧ b'.locY + b'.sizeH ≤ sh := by
  intro b' hb'
  cases b? with
  | none => simp [validationBoost] at hb'
  | some b =>
    have hb := h b rfl
    simp only [validationBoost] at hb'
    split_ifs at hb' with h1 h2
    · cases hb'
      refine ⟨?_, ?_, hb.2.2.1, hb.2.2.2⟩
      · show 0 < min 1 (b.confidence * (1 + validate b * (1/5)))
        apply lt_min
        · norm_num
        · have : (1 : ℚ) < 1 + validate b * (1/5) := by linarith
          nlinarith [hb.1]
      · show min 1 (b.confidence * (1 + validate b * (1/5))) ≤ 1
        exact min_le_left _ _
    · cases hb'
      exact hb
    · cases hb'
      exact hb

/-- `advanced_template_matching` result properties under the assumption
that every correlation score lies in [-1, 1]. -/
theorem advanced_props (score : ScoreFn) (validate : MatchCandidate → ℚ)
    (tw th sw sh : ℕ) (threshold : ℚ)
    (hs : ∀ m w h x y, -1 ≤ score m w h x y ∧ score m w h x y ≤ 1) :
    ∀ b, advanced_template_matching score validate tw th sw sh threshold = some b →
      0 < b.confidence ∧ b.confidence ≤ 1 ∧ threshold ≤ b.confidence ∧
      b.locX + b.sizeW ≤ sw ∧ b.locY + b.sizeH ≤ sh := by
  intro b hb
  have hinit : GoodState sw sh ((none : Option MatchCandidate), (0 : ℚ)) :=
    ⟨le_refl 0, by intro c hc; simp at hc⟩
  have hG : GoodState sw sh
      (scanGrid score tw th sw sh (gridPoints tw th sw sh) (none, 0)) :=
    scanGrid_good hs (gridPoints tw th sw sh) hinit
  have hboost := validationBoost_props sw sh validate threshold
    (scanGrid score tw th sw sh (gridPoints tw th sw sh) (none, 0)).1
    (fun c hc => hG.2 c hc)
  have hunf : advanced_template_matching score validate tw th sw sh threshold =
      (match validationBoost validate threshold
          (scanGrid score tw th sw sh (gridPoints tw th sw sh) (none, 0)).1 with
        | some c => if threshold ≤ c.confidence then some c else none
        | none => none) := rfl
  rw [hunf] at hb
  rcases hv : validationBoost validate threshold
      (scanGrid score tw th sw sh (gridPoints tw th sw sh) (none, 0)).1 with
    _ | b''
  · rw [hv] at hb
    simp at hb
  · rw [hv] at hb
    have hb' : (if threshold ≤ b''.confidence then some b'' else none) =
        some b := hb
    have hprops := hboost b'' hv
    by_cases ht : threshold ≤ b''.confidence
    · rw [if_pos ht] at hb'
      cases hb'
      exact ⟨hprops.1, hprops.2.1, ht, hprops.2.2⟩
    · rw [if_neg ht] at hb'
      cases hb'

theorem lookup_mem {α : Type} :
    ∀ (l : List (ℕ × α)) (k : ℕ) (v : α), l.lookup k = some v → (k, v) ∈ l := by
  intro l
  induction l with
  | nil => intro k v h; simp [List.lookup] at h
  | cons hd tl ih =>
    intro k v h
    rw [List.lookup] at h
    cases hbeq : (k == hd.1) with
    | false =>
      rw [hbeq] at h
      exact List.mem_cons_of_mem _ (ih k v h)
    | true =>
      rw [hbeq] at h
      simp at h
      subst h
      have hk : k = hd.1 := by simpa using hbeq
      rw [hk]
      exact List.mem_cons_self _ _

/-- Cache entries produced by `load_template_cached` come either from the
previous cache or from the disk oracle. -/
theorem load_template_cached_sources (disk : ℕ → Option Template)
    (cache : TemplateCache) (path : ℕ) :
    (∀ t, (load_template_cached disk cache path).1 = some t →
      (path, t) ∈ cache ∨ disk path = some t) ∧
    (∀ pt ∈ (load_template_cached disk cache path).2,
      pt ∈ cache ∨ disk pt.1 = some pt.2) := by
  rcases hl : cache.lookup path with _ | t
  · rcases hd : disk path with _ | t
    · constructor
      · intro t' h
        simp [load_template_cached, hl, hd] at h
      · intro pt hpt
        simp only [load_template_cached, hl, hd] at hpt
        exact Or.inl hpt
    · constructor
      · intro t' h
        simp only [load_template_cached, hl, hd, Option.some.injEq] at h
        exact Or.inr (by rw [h])
      · intro pt hpt
        simp only [load_template_cached, hl, hd] at hpt
        rcases List.mem_append.mp hpt with h | h
        · exact Or.inl h
        · simp only [List.mem_singleton] at h
          right
          rw [h]
          exact hd
  · constructor
    · intro t' h
      simp only [load_template_cached, hl, Option.some.injEq] at h
      have hm : (path, t') ∈ cache := by
        rw [← h]
        exact lookup_mem cache path t hl
      exact Or.inl hm
    · intro pt hpt
      simp only [load_template_cached, hl] at hpt
      exact Or.inl hpt

/-- Boundedness of the scores of every template reachable from a cache and
a disk oracle. -/
def BoundedScores (disk : ℕ → Option Template) (cache : TemplateCache) : Prop :=
  (∀ p t, disk p = some t →
    ∀ m w h x y, -1 ≤ t.score m w h x y ∧ t.score m w h x y ≤ 1) ∧
  (∀ pt ∈ cache, ∀ m w h x y,
    -1 ≤ pt.2.score m w h x y ∧ pt.2.score m w h x y ≤ 1)

/-- Every match collected by the template loop clears the threshold, has a
confidence in (0, 1], and a matched region inside the frame. -/
theorem collect_props (disk : ℕ → Option Template) (sw sh : ℕ)
    (threshold : ℚ) (strategy : MatchStrategy) :
    ∀ (paths : List ℕ) (cache : TemplateCache) (acc : List TemplateMatch),
      BoundedScores disk cache →
      (∀ tm ∈ acc,
        0 < tm.m.confidence ∧ tm.m.confidence ≤ 1 ∧
        threshold ≤ tm.m.confidence ∧
        tm.m.locX + tm.m.sizeW ≤ sw ∧ tm.m.locY + tm.m.sizeH ≤ sh) →
      ∀ tm ∈ (collectTemplateMatches disk sw sh threshold strategy paths
          cache acc).1,
        0 < tm.m.confidence ∧ tm.m.confidence ≤ 1 ∧
        threshold ≤ tm.m.confidence ∧
        tm.m.locX + tm.m.sizeW ≤ sw ∧ tm.m.locY + tm.m.sizeH ≤ sh := by
  intro paths
  induction paths with
  | nil =>
    intro cache acc _ hacc tm htm
    exact hacc tm htm
  | cons p rest ih =>
    intro cache acc hB hacc
    have hsrc := load_template_cached_sources disk cache p
    have hB' : BoundedScores disk (load_template_cached disk cache p).2 := by
      refine ⟨hB.1, ?_⟩
      intro pt hpt
      rcases hsrc.2 pt hpt with h | h
      · exact hB.2 pt h
      · exact hB.1 pt.1 pt.2 h
    unfold collectTemplateMatches
    dsimp only
    split
    · exact ih _ acc hB' hacc
    · rename_i t hl1
      have htB : ∀ m w h x y, -1 ≤ t.score m w h x y ∧ t.score m w h x y ≤ 1 := by
        rcases hsrc.1 t hl1 with h | h
        · exact hB.2 (p, t) h
        · exact hB.1 p t h
      split
      · exact ih _ acc hB' hacc
      · rename_i m hadv
        have hm := advanced_props t.score t.validate t.w t.h sw sh threshold
          htB m hadv
        have hacc' : ∀ tm ∈ acc ++ [{ m := m, templatePath := p }],
            0 < tm.m.confidence ∧ tm.m.confidence ≤ 1 ∧
            threshold ≤ tm.m.confidence ∧
            tm.m.locX + tm.m.sizeW ≤ sw ∧ tm.m.locY + tm.m.sizeH ≤ sh := by
          intro tm htm
          rcases List.mem_append.mp htm with h | h
          · exact hacc tm h
          · simp only [List.mem_singleton] at h
            rcases hm with ⟨hm1, hm2, hm3, hm4⟩
            rw [h]
            exact ⟨hm1, hm2, hm3, hm4⟩
        split_ifs with hth hfirst
        · exact hacc'
        · exact ih _ _ hB' hacc'
        · exact ih _ acc hB' hacc

theorem maxByConfidence_mem :
    ∀ (tl : List TemplateMatch) (hd : TemplateMatch),
      maxByConfidence hd tl ∈ hd :: tl := by
  intro tl
  induction tl with
  | nil => intro hd; simp [maxByConfidence]
  | cons r rest ih =>
    intro hd
    have hstep : maxByConfidence hd (r :: rest) =
        maxByConfidence (if hd.m.confidence < r.m.confidence then r else hd)
          rest := by
      unfold maxByConfidence
      rfl
    rw [hstep]
    split_ifs with h
    · rcases List.mem_cons.mp (ih r) with h' | h'
      · rw [h']
        simp
      · simp [h']
    · rcases List.mem_cons.mp (ih hd) with h' | h'
      · rw [h']
        simp
      · simp [h']

/-- Properties of `check_multiple_templates` results: every reported match
clears the threshold, has confidence in (0, 1], and lies inside the frame. -/
theorem check_multiple_props (disk : ℕ → Option Template)
    (cache : TemplateCache) (templatePaths : List ℕ) (threshold : ℚ)
    (strategy : MatchStrategy) (sw sh : ℕ) (hB : BoundedScores disk cache) :
    (∀ tm, (check_multiple_templates disk cache templatePaths threshold
        strategy sw sh).1 = some (.single tm) →
      0 < tm.m.confidence ∧ tm.m.confidence ≤ 1 ∧
      threshold ≤ tm.m.confidence ∧
      tm.m.locX + tm.m.sizeW ≤ sw ∧ tm.m.locY + tm.m.sizeH ≤ sh) ∧
    (∀ ms bc n, (check_multiple_templates disk cache templatePaths threshold
        strategy sw sh).1 = some (.allOf ms bc n) →
      ∀ tm ∈ ms,
        0 < tm.m.confidence ∧ tm.m.confidence ≤ 1 ∧
        threshold ≤ tm.m.confidence ∧
        tm.m.locX + tm.m.sizeW ≤ sw ∧ tm.m.locY + tm.m.sizeH ≤ sh) := by
  have hcollect := collect_props disk sw sh threshold strategy templatePaths
    cache [] hB (by intro tm htm; simp at htm)
  unfold check_multiple_templates
  split_ifs with hnil
  · constructor
    · intro tm h
      simp at h
    · intro ms bc n h
      simp at h
  · dsimp only
    split
    · constructor
      · intro tm h
        simp at h
      · intro ms bc n h
        simp at h
    · rename_i hd tl hres
      have hall : ∀ tm ∈ hd :: tl,
          0 < tm.m.confidence ∧ tm.m.confidence ≤ 1 ∧
          threshold ≤ tm.m.confidence ∧
          tm.m.locX + tm.m.sizeW ≤ sw ∧ tm.m.locY + tm.m.sizeH ≤ sh := by
        rw [← hres]
        exact hcollect
      cases strategy with
      | best =>
        constructor
        · intro tm h
          simp only [Option.some.injEq, MultiMatch.single.injEq] at h
          rw [← h]
          exact hall _ (maxByConfidence_mem tl hd)
        · intro ms bc n h
          simp at h
      | first =>
        constructor
        · intro tm h
          simp only [Option.some.injEq, MultiMatch.single.injEq] at h
          rw [← h]
          exact hall hd (by simp)
        · intro ms bc n h
          simp at h
      | all =>
        constructor
        · intro tm h
          simp at h
        · intro ms bc n h
          simp only [Option.some.injEq, MultiMatch.allOf.injEq] at h
          rw [← h.1]
          exact hall
      | other =>
        constructor
        · intro tm h
          simp only [Option.some.injEq, MultiMatch.single.injEq] at h
          rw [← h]
          exact hall _ (maxByConfidence_mem tl hd)
        · intro ms bc n h
          simp at h

/-- `advanced_template_matching` returns `None` only when the (boosted) best
candidate misses the threshold. -/
theorem advanced_none (score : ScoreFn) (validate : MatchCandidate → ℚ)
    (tw th sw sh : ℕ) (threshold : ℚ)
    (h : advanced_template_matching score validate tw th sw sh threshold = none) :
    ∀ b, validationBoost validate threshold
        (scanGrid score tw th sw sh (gridPoints tw th sw sh) (none, 0)).1
      = some b → b.confidence < threshold := by
  intro b hb
  by_contra hc
  push_neg at hc
  have hsome : advanced_template_matching score validate tw th sw sh threshold
      = some b := by
    have hunf : advanced_template_matching score validate tw th sw sh threshold =
        (match validationBoost validate threshold
            (scanGrid score tw th sw sh (gridPoints tw th sw sh) (none, 0)).1 with
          | some c => if threshold ≤ c.confidence then some c else none
          | none => none) := rfl
    rw [hunf, hb]
    show (if threshold ≤ b.confidence then some b else none) = some b
    rw [if_pos hc]
  exact Option.noConfusion (hsome.symm.trans h)

theorem exScore_bounds :
    ∀ m w h x y, -1 ≤ exScore m w h x y ∧ exScore m w h x y ≤ 1 := by
  intro m w h x y
  unfold exScore
  split_ifs <;> norm_num

/-! ## C1 — match semantics -/

/-- C1: assuming every correlation score produced by `cv2.matchTemplate`
lies in [-1, 1] (the defining property of the normalized methods used), the
confidence reported by `advanced_template_matching` lies in [0, 1]; a match
is returned iff the (boosted) best candidate's confidence reaches the
threshold; the matched region — location plus scaled template size — lies
fully inside the frame; and the same holds for every match reported by
`check_multiple_templates` (single-result strategies and the `"all"`
strategy alike). -/
theorem c1_match_semantics :
    (∀ (score : ScoreFn) (validate : MatchCandidate → ℚ) (tw th sw sh : ℕ)
        (threshold : ℚ),
      (∀ m w h x y, -1 ≤ score m w h x y ∧ score m w h x y ≤ 1) →
      (∀ b, advanced_template_matching score validate tw th sw sh threshold
          = some b →
        0 ≤ b.confidence ∧ b.confidence ≤ 1 ∧ threshold ≤ b.confidence ∧
        b.locX + b.sizeW ≤ sw ∧ b.locY + b.sizeH ≤ sh) ∧
      (advanced_template_matching score validate tw th sw sh threshold = none →
        ∀ b, validationBoost validate threshold
            (scanGrid score tw th sw sh (gridPoints tw th sw sh) (none, 0)).1
          = some b → b.confidence < threshold)) ∧
    (∀ (disk : ℕ → Option Template) (cache : TemplateCache)
        (templatePaths : List ℕ) (threshold : ℚ) (strategy : MatchStrategy)
        (sw sh : ℕ), BoundedScores disk cache →
      (∀ tm, (check_multiple_templates disk cache templatePaths threshold
          strategy sw sh).1 = some (.single tm) →
        0 ≤ tm.m.confidence ∧ tm.m.confidence ≤ 1 ∧
        threshold ≤ tm.m.confidence ∧
        tm.m.locX + tm.m.sizeW ≤ sw ∧ tm.m.locY + tm.m.sizeH ≤ sh) ∧
      (∀ ms bc n, (check_multiple_templates disk cache templatePaths threshold
          strategy sw sh).1 = some (.allOf ms bc n) →
        ∀ tm ∈ ms,
          0 ≤ tm.m.confidence ∧ tm.m.confidence ≤ 1 ∧
          threshold ≤ tm.m.confidence ∧
          tm.m.locX + tm.m.sizeW ≤ sw ∧ tm.m.locY + tm.m.sizeH ≤ sh)) := by
  constructor
  · intro score validate tw th sw sh threshold hs
    constructor
    · intro b hb
      have h := advanced_props score validate tw th sw sh threshold hs b hb
      exact ⟨le_of_lt h.1, h.2.1, h.2.2.1, h.2.2.2⟩
    · exact advanced_none score validate tw th sw sh threshold
  · intro disk cache templatePaths threshold strategy sw sh hB
    have h := check_multiple_props disk cache templatePaths threshold strategy
      sw sh hB
    constructor
    · intro tm htm
      have h' := h.1 tm htm
      exact ⟨le_of_lt h'.1, h'.2.1, h'.2.2.1, h'.2.2.2⟩
    · intro ms bc n hms tm htm
      have h' := h.2 ms bc n hms tm htm
      exact ⟨le_of_lt h'.1, h'.2.1, h'.2.2.1, h'.2.2.2⟩

set_option maxRecDepth 20000 in
/-- Witness for `c1_match_semantics`: the concrete 17×17-template / 28×28
frame scan with the bounded `exScore` oracle. -/
theorem c1_witness :
    0 ≤ exCandidate.confidence ∧ exCandidate.confidence ≤ 1 ∧
    (9/10 : ℚ) ≤ exCandidate.confidence ∧
    exCandidate.locX + exCandidate.sizeW ≤ 28 ∧
    exCandidate.locY + exCandidate.sizeH ≤ 28 :=
  (c1_match_semantics.1 exScore exValidate 17 17 28 28 (9/10)
      exScore_bounds).1 exCandidate
    (of_decide_eq_true (by with_unfolding_all rfl))

/-! ## C5 — no early stop in the scale/ratio scan -/

set_option maxRecDepth 20000 in
/-- C5 counterexample: the source scan has no early stop.  With `exScore`,
the first grid point (ratio 0.85) already scores 0.96 > 0.95, yet the
returned confidence is 0.99 from a later grid point; the spec's
early-stopping scan (`scanGridSpecEarlyStop`) would stop at the first point
and return 0.96, so the result does not equal the result computed from only
the grid points visited up to the first >0.95 score. -/
theorem c5_counterexample :
    (advanced_template_matching exScore exValidate 17 17 28 28 (9/10)).map
        MatchCandidate.confidence = some (99/100) ∧
    ((scanGridSpecEarlyStop exScore 17 17 28 28 (gridPoints 17 17 28 28)
        (none, 0)).1.map MatchCandidate.confidence) = some (24/25) ∧
    ((99 : ℚ)/100) ≠ 24/25 :=
  of_decide_eq_true (by with_unfolding_all rfl)

/-- C5 amended: the scale/ratio scan visits every grid point — there is no
early termination on a near-perfect score.  The best weighted confidence
produced by the full scan is an upper bound for the weighted maximum of
every grid point that passes the size guards, including points scanned
after one whose score exceeds 0.95. -/
theorem c5_amended (score : ScoreFn) (tw th sw sh : ℕ) (s r : ℚ)
    (hp : (s, r) ∈ gridPoints tw th sw sh)
    (h1 : ¬ ((⌊(tw : ℚ) * s * r⌋).toNat < 20 ∨ (⌊(th : ℚ) * s⌋).toNat < 20))
    (h2 : ¬ ((sw : ℚ) * (9/10) < ((⌊(tw : ℚ) * s * r⌋).toNat : ℚ) ∨
        (sh : ℚ) * (9/10) < ((⌊(th : ℚ) * s⌋).toNat : ℚ)))
    (m : TMMethod) :
    (minMaxLocMax
        (fun x y => score m (⌊(tw : ℚ) * s * r⌋).toNat (⌊(th : ℚ) * s⌋).toNat x y)
        (sw - (⌊(tw : ℚ) * s * r⌋).toNat + 1)
        (sh - (⌊(th : ℚ) * s⌋).toNat + 1)).1 * methodWeight m ≤
      (scanGrid score tw th sw sh (gridPoints tw th sw sh) (none, 0)).2 := by
  obtain ⟨l1, l2, hsplit⟩ := List.append_of_mem hp
  rw [hsplit, scanGrid_append]
  have hstep : scanGrid score tw th sw sh ((s, r) :: l2)
      (scanGrid score tw th sw sh l1 (none, 0)) =
      scanGrid score tw th sw sh l2
        (scanPoint score tw th sw sh
          (scanGrid score tw th sw sh l1 (none, 0)) (s, r)) := rfl
  rw [hstep]
  exact le_trans (scanPoint_ge h1 h2 _ m) (scanGrid_mono score tw th sw sh l2 _)

set_option maxRecDepth 20000 in
/-- Witness for `c5_amended` at the grid point (1.4, 1) of the concrete
scan. -/
theorem c5_amended_witness :
    (minMaxLocMax
        (fun x y => exScore .ccoeffNormed
          (⌊((17 : ℕ) : ℚ) * (7/5) * 1⌋).toNat (⌊((17 : ℕ) : ℚ) * (7/5)⌋).toNat x y)
        (28 - (⌊((17 : ℕ) : ℚ) * (7/5) * 1⌋).toNat + 1)
        (28 - (⌊((17 : ℕ) : ℚ) * (7/5)⌋).toNat + 1)).1 *
      methodWeight .ccoeffNormed ≤
    (scanGrid exScore 17 17 28 28 (gridPoints 17 17 28 28) (none, 0)).2 :=
  c5_amended exScore 17 17 28 28 (7/5) 1
    (of_decide_eq_true (by with_unfolding_all rfl))
    (of_decide_eq_true (by with_unfolding_all rfl))
    (of_decide_eq_true (by with_unfolding_all rfl))
    .ccoeffNormed

end Digalert
